import Mathlib

/-!
Verification development for the `python-video-converter` library
(`converter/__init__.py`, `converter/avcodecs.py`).

The embedding models Python values, dictionaries (association lists with
insertion-ordered keys, CPython 3.7+ semantics), and the option-compilation
pipeline: per-codec `parse_options`, the geometry resolver
`VideoCodec._aspect_corrections`, and `Converter.parse_options`.

Numeric conventions used throughout, faithful to the source:
* Python computes the aspect ratio `aspect = (1.0*sw)/(1.0*sh)` in floating
  point and then truncates with `int(...)`.  Here the arithmetic is modelled
  exactly: `int(expr)` of the exact rational value of `expr` is expressed with
  integer arithmetic, e.g. `int(aspect * h) = Int.tdiv (sw * h) sh`
  (`Int.tdiv` truncates toward zero, as Python `int()` does).
* Rational comparisons `a/b < c/d` (with `b, d` nonzero) are expressed by
  cross-multiplication with the positive factor `b^2 * d^2`:
  `a*b*d*d < c*d*b*b`.
* The progress percentages of `Converter.convert` are modelled over `ℚ`
  (exact-real idealisation of Python floats).
-/

deriving instance DecidableEq for Except

namespace VideoConverter

/-- A Python scalar value as it occurs in option maps: a string, an int, or
`None`. -/
inductive PyVal where
  | s (v : String)
  | i (v : Int)
  | null
deriving DecidableEq, Repr

/-- A token of the compiled ffmpeg argument list.  The source appends mostly
strings but some codec-specific lists append raw ints (e.g.
`['-qscale:a', safe['quality']]` in `VorbisCodec`), so tokens are
string-or-int. -/
inductive Tok where
  | s (v : String)
  | i (v : Int)
deriving DecidableEq, Repr

/-- Scalar type of an `encoder_options` entry (`str` or `int` in the source
tables). -/
inductive PyType where
  | str
  | int
deriving DecidableEq, Repr

/-- The `str(v)` for the values we model. -/
def pyStr : PyVal → String
  | .s v => v
  | .i n => toString n
  | .null => "None"

/-- Accumulate decimal digits; fails on the first non-digit. -/
def digitsValAux (acc : Nat) : List Char → Option Nat
  | [] => some acc
  | c :: t =>
    if c.isDigit then digitsValAux (acc * 10 + (c.toNat - 48)) t
    else Option.none

/-- A nonempty all-digit string as a number. -/
def parseDigits : List Char → Option Nat
  | [] => Option.none
  | c :: t => digitsValAux 0 (c :: t)

/-- The `int(s)` for a string: optional sign followed by decimal digits
(Python additionally strips whitespace and allows underscores; those
refinements are irrelevant to the option values modelled here). -/
def parsePyInt (s : String) : Option Int :=
  match s.data with
  | '-' :: t => (parseDigits t).map (fun n => -(n : Int))
  | '+' :: t => (parseDigits t).map (fun n => (n : Int))
  | l => (parseDigits l).map (fun n => (n : Int))

/-- The `int(v)`: succeeds on ints and on strings that parse as an integer,
raises (returns `none`) otherwise (e.g. `int('w00t')`, `int(None)`). -/
def coerceInt : PyVal → Option Int
  | .i n => some n
  | .s v => parsePyInt v
  | .null => Option.none

/-- Type coercion performed by `BaseCodec.safe_options`: `typ(v)` where `typ`
is the declared scalar type; `none` models the swallowed exception. -/
def pyCoerce : PyType → PyVal → Option PyVal
  | .str, v => some (.s (pyStr v))
  | .int, v => (coerceInt v).map PyVal.i

/-- A Python dict with string keys, as an insertion-ordered association list
(CPython 3.7+ dicts preserve insertion order and have unique keys; see
`upsertD` for the assignment discipline that maintains this). -/
abbrev SpecDict := List (String × PyVal)

/-- The `d[k]` lookup (first occurrence). -/
def lookupD {α : Type} (d : List (String × α)) (k : String) : Option α :=
  match d with
  | [] => Option.none
  | (k1, v) :: t => if k1 = k then some v else lookupD t k

/-- The `k in d`. -/
def hasKeyD {α : Type} (d : List (String × α)) (k : String) : Bool :=
  (lookupD d k).isSome

/-- The `d[k] = v`: update in place if the key exists (keeping its position, as
CPython does), otherwise append. -/
def upsertD {α : Type} (d : List (String × α)) (k : String) (v : α) :
    List (String × α) :=
  match d with
  | [] => [(k, v)]
  | (k1, v1) :: t => if k1 = k then (k1, v) :: t else (k1, v1) :: upsertD t k v

/-- The `del d[k]` (keys are unique, so removing every occurrence of the key
is removing its one entry). -/
def eraseD {α : Type} (d : List (String × α)) (k : String) :
    List (String × α) :=
  match d with
  | [] => []
  | (k1, v1) :: t => if k1 = k then eraseD t k else (k1, v1) :: eraseD t k

/-- The keys of a dict. -/
def keysD {α : Type} (d : List (String × α)) : List String :=
  d.map Prod.fst

/-- The `int(a/b)` for the exact rational `a/b` (`b ≠ 0`): truncation toward
zero, which is what Python's `int()` applied to the float quotient does. -/
def ratTrunc (a b : Int) : Int := Int.tdiv a b

/-- The `a/b < c/d` for exact rationals with `b ≠ 0`, `d ≠ 0`, by
cross-multiplication with the positive factor `b^2*d^2`. -/
def ratLtB (a b c d : Int) : Bool := a * b * d * d < c * d * b * b

/-- The `VideoCodec._aspect_corrections(sw, sh, w, h, mode)`.

`None` dimensions are encoded as `0`: the source only tests dimensions for
truthiness (`if not sw`, `if w and h`), for which `None` and `0` are
indistinguishable, and validated dimensions are never `0`.

Returns `.error "AssertionError"` where the source's `assert` statements
fail (including the final unreachable `assert False, mode`).

Source, line by line:
* `if not sw or not sh: return w, h, None`
* `aspect = (1.0 * sw) / (1.0 * sh)`
* `if not w and not h: return w, h, None`
* `elif w and not h: h = int((1.0 * w) / aspect); return w, h, None`
* `elif h and not w: w = int(aspect * h); return w, h, None`
* `if int(aspect * h) == w: return w, h, None`
* `if mode == 'stretch': return w, h, None`
* `target_aspect = (1.0 * w) / (1.0 * h)`
* crop: taller target (`target_aspect > aspect`): `h0 = int(w / aspect)`,
  `assert h0 > h`, `dh = (h0 - h) / 2`, filter `crop=w:h:0:dh`, return
  `(w, h0)`; otherwise `w0 = int(h * aspect)`, `assert w0 > w`,
  `dw = (w0 - w) / 2`, filter `crop=w:h:dw:0`, return `(w0, h)`.
* pad: `target_aspect < aspect`: `h1 = int(w / aspect)`, `assert h1 < h`,
  `dh = (h - h1) / 2`, filter `pad=w:h:0:dh`, return `(w, h1)`; otherwise
  `w1 = int(h * aspect)`, `assert w1 < w`, `dw = (w - w1) / 2`, filter
  `pad=w:h:dw:0`, return `(w1, h)`.

The Python 3 division `(h0 - h) / 2` produces a float that `'%d'` then
truncates toward zero, hence `ratTrunc _ 2`. -/
def aspect_corrections (sw sh w h : Int) (mode : String) :
    Except String (Int × Int × Option String) :=
  if sw = 0 ∨ sh = 0 then .ok (w, h, Option.none)
  else if w = 0 ∧ h = 0 then .ok (w, h, Option.none)
  else if w ≠ 0 ∧ h = 0 then .ok (w, ratTrunc (w * sh) sw, Option.none)
  else if h ≠ 0 ∧ w = 0 then .ok (ratTrunc (sw * h) sh, h, Option.none)
  else if ratTrunc (sw * h) sh = w then .ok (w, h, Option.none)
  else if mode = "stretch" then .ok (w, h, Option.none)
  else if mode = "crop" then
    if ratLtB sw sh w h then
      -- target is taller: h0 = int(w / aspect)
      let h0 := ratTrunc (w * sh) sw
      if h < h0 then
        let dh := ratTrunc (h0 - h) 2
        .ok (w, h0, some ("crop=" ++ toString w ++ ":" ++ toString h ++
          ":0:" ++ toString dh))
      else .error "AssertionError"
    else
      -- source is wider: w0 = int(h * aspect)
      let w0 := ratTrunc (h * sw) sh
      if w < w0 then
        let dw := ratTrunc (w0 - w) 2
        .ok (w0, h, some ("crop=" ++ toString w ++ ":" ++ toString h ++
          ":" ++ toString dw ++ ":0"))
      else .error "AssertionError"
  else if mode = "pad" then
    if ratLtB w h sw sh then
      -- target is taller: h1 = int(w / aspect)
      let h1 := ratTrunc (w * sh) sw
      if h1 < h then
        let dh := ratTrunc (h - h1) 2
        .ok (w, h1, some ("pad=" ++ toString w ++ ":" ++ toString h ++
          ":0:" ++ toString dh))
      else .error "AssertionError"
    else
      let w1 := ratTrunc (h * sw) sh
      if w1 < w then
        let dw := ratTrunc (w - w1) 2
        .ok (w1, h, some ("pad=" ++ toString w ++ ":" ++ toString h ++
          ":" ++ toString dw ++ ":0"))
      else .error "AssertionError"
  else .error "AssertionError"

/-- Python 3 `round()` (banker's rounding, half to even) of the exact
rational `a/b`, for `b > 0`.  Used only to state what the spec's
`round(aspect*h)` would be. -/
def ratRound (a b : Int) : Int :=
  let f := Int.fdiv a b
  let r2 := 2 * (a - f * b)
  if r2 < b then f
  else if b < r2 then f + 1
  else if f % 2 = 0 then f else f + 1

/-- The `BaseCodec.parse_options`: `if 'codec' not in opt or opt['codec'] !=
self.codec_name: raise ValueError('invalid codec name')`. -/
def baseCheck (codecName : PyVal) (opt : SpecDict) : Except String Unit :=
  match lookupD opt "codec" with
  | some v => if v = codecName then .ok () else .error "invalid codec name"
  | _ => .error "invalid codec name"

/-- One step of `BaseCodec.safe_options`: the fold over `opts.items()` that
copies recognized, coercible options into `safe` (in insertion order). -/
def safeOptionsAux (enc : List (String × PyType)) (safe : SpecDict) :
    SpecDict → SpecDict
  | [] => safe
  | (k, v) :: t =>
    match lookupD enc k with
    | some ty =>
      match pyCoerce ty v with
      | some w => safeOptionsAux enc (upsertD safe k w) t
      | _ => safeOptionsAux enc safe t
    | _ => safeOptionsAux enc safe t

/-- The `BaseCodec.safe_options(opts)`. -/
def safeOptions (enc : List (String × PyType)) (opt : SpecDict) : SpecDict :=
  safeOptionsAux enc [] opt

/-- The recurring range-validation pattern of the audio/video
`parse_options`: `if key in safe: x = safe[key]; if x < lo or x > hi:
del safe[key]`.  The looked-up value is always an int here because the
corresponding `encoder_options` entry is `int`. -/
def rangeStep (key : String) (lo hi : Int) (safe : SpecDict) : SpecDict :=
  match lookupD safe key with
  | some (.i n) => if n < lo ∨ hi < n then eraseD safe key else safe
  | _ => safe

/-- The `AudioCodec.encoder_options` (the base table). -/
def audioBaseOpts : List (String × PyType) :=
  [("codec", .str), ("channels", .int), ("bitrate", .int),
   ("samplerate", .int)]

/-- The `VideoCodec.encoder_options` (the base table). -/
def videoBaseOpts : List (String × PyType) :=
  [("codec", .str), ("bitrate", .int), ("fps", .int), ("width", .int),
   ("height", .int), ("mode", .str), ("src_width", .int),
   ("src_height", .int)]

/-- A concrete audio codec class: its `codec_name`, `ffmpeg_codec_name`, the
`encoder_options` it adds to the base table (`.copy()` + `.update(...)`, so
additions take precedence on lookup), and its
`_codec_specific_parse_options` / `_codec_specific_produce_ffmpeg_list`
overrides. -/
structure AudioDef where
  codecName : PyVal
  ffmpegName : String
  extraOpts : List (String × PyType) := []
  specificParse : SpecDict → SpecDict := fun safe => safe
  specificList : SpecDict → List Tok := fun _ => []

/-- A concrete video codec class (same fields as `AudioDef`). -/
structure VideoDef where
  codecName : PyVal
  ffmpegName : String
  extraOpts : List (String × PyType) := []
  specificParse : SpecDict → SpecDict := fun safe => safe
  specificList : SpecDict → List Tok := fun _ => []

/-- A raw option value appended to an ffmpeg list without `str()` (the
codec-specific lists append e.g. `safe['quality']` as-is). -/
def tokOfVal : PyVal → Tok
  | .s v => Tok.s v
  | .i n => Tok.i n
  | .null => Tok.s "None"

/-- The validated option map of `AudioCodec.parse_options`: `safe_options`
followed by the three range checks (channels 1–12, bitrate 8–512,
samplerate 1000–50000), in source order. -/
def audioSafe (ad : AudioDef) (opt : SpecDict) : SpecDict :=
  rangeStep "samplerate" 1000 50000
    (rangeStep "bitrate" 8 512
      (rangeStep "channels" 1 12
        (safeOptions (ad.extraOpts ++ audioBaseOpts) opt)))

/-- The argument list `AudioCodec.parse_options` builds from the validated
map (after `_codec_specific_parse_options`). -/
def audioList (ad : AudioDef) (safe : SpecDict) : List Tok :=
  [Tok.s "-acodec", Tok.s ad.ffmpegName] ++
  (match lookupD safe "channels" with
    | some v => [Tok.s "-ac", Tok.s (pyStr v)] | _ => []) ++
  (match lookupD safe "bitrate" with
    | some v => [Tok.s "-ab", Tok.s (pyStr v ++ "k")] | _ => []) ++
  (match lookupD safe "samplerate" with
    | some v => [Tok.s "-ar", Tok.s (pyStr v)] | _ => []) ++
  ad.specificList safe

/-- The `AudioCodec.parse_options(opt)`: identity check, option validation,
codec-specific refinement, list emission. -/
def audioCodecParse (ad : AudioDef) (opt : SpecDict) :
    Except String (List Tok) :=
  match baseCheck ad.codecName opt with
  | .error e => .error e
  | .ok _ => .ok (audioList ad (ad.specificParse (audioSafe ad opt)))

/-- The `VideoCodec.parse_options(opt)`.

`None` width/height values are encoded as `0` (see `aspect_corrections`);
the validated ranges 16–4000 / 16–3000 exclude `0`, so the encoding is
unambiguous.  The final reads `safe['width']` etc. after the
codec-specific hook keep Python's `KeyError` as an error for hooks that
would remove those keys (none of the concrete hooks does). -/
def videoSafe0 (vd : VideoDef) (opt : SpecDict) : SpecDict :=
  rangeStep "bitrate" 16 15000
    (rangeStep "fps" 1 120
      (safeOptions (vd.extraOpts ++ videoBaseOpts) opt))

/-- The `w = safe.get('width')` validated against 16–4000 (`None` as `0`). -/
def videoW (safe : SpecDict) : Int :=
  match lookupD safe "width" with
  | some (.i x) => if x < 16 ∨ 4000 < x then 0 else x
  | _ => 0

/-- The `h = safe.get('height')` validated against 16–3000 (`None` as `0`). -/
def videoH (safe : SpecDict) : Int :=
  match lookupD safe "height" with
  | some (.i x) => if x < 16 ∨ 3000 < x then 0 else x
  | _ => 0

/-- The `(sw, sh)`: present only when both `src_width` and `src_height` are,
and both truthy. -/
def videoSrc (safe : SpecDict) : Int × Int :=
  match lookupD safe "src_width", lookupD safe "src_height" with
  | some (.i a), some (.i b) => if a = 0 ∨ b = 0 then (0, 0) else (a, b)
  | _, _ => (0, 0)

/-- The `mode = 'stretch'` unless `safe['mode']` is one of the three modes. -/
def videoMode (safe : SpecDict) : String :=
  match lookupD safe "mode" with
  | some (.s m) =>
    if m = "stretch" ∨ m = "crop" ∨ m = "pad" then m else "stretch"
  | _ => "stretch"

/-- The stored `aspect_filters` value (`None` for no filter). -/
def filtersVal (filters : Option String) : PyVal :=
  match filters with | some f => .s f | _ => .null

/-- The write-back of the geometry results into the validated map:
`safe['width'] = w; safe['height'] = h; safe['aspect_filters'] = filters;
if w and h: safe['aspect'] = '%d:%d' % (w, h)`. -/
def videoSafe1 (safe : SpecDict) (w h : Int) (filters : Option String) :
    SpecDict :=
  if w ≠ 0 ∧ h ≠ 0 then
    upsertD
      (upsertD (upsertD (upsertD safe "width" (.i w)) "height" (.i h))
        "aspect_filters" (filtersVal filters))
      "aspect" (.s (toString w ++ ":" ++ toString h))
  else
    upsertD (upsertD (upsertD safe "width" (.i w)) "height" (.i h))
      "aspect_filters" (filtersVal filters)

/-- The final reads and list emission of `VideoCodec.parse_options`;
`ow`/`oh` are the pre-correction dimensions used for `-aspect`.  A hook
that removed `width`/`height`/`aspect_filters` or retyped them would make
the re-reads fail (`KeyError`); no concrete hook does. -/
def videoList (vd : VideoDef) (ow oh : Int) (safe : SpecDict) :
    Except String (List Tok) :=
  match lookupD safe "width", lookupD safe "height",
        lookupD safe "aspect_filters" with
  | some (.i w), some (.i h), some fv =>
    .ok ([Tok.s "-vcodec", Tok.s vd.ffmpegName] ++
      (match lookupD safe "fps" with
        | some v => [Tok.s "-r", Tok.s (pyStr v)] | _ => []) ++
      (match lookupD safe "bitrate" with
        | some v => [Tok.s "-vb", Tok.s (pyStr v ++ "k")] | _ => []) ++
      (if w ≠ 0 ∧ h ≠ 0 then
        [Tok.s "-s", Tok.s (toString w ++ "x" ++ toString h)] ++
        (if ow ≠ 0 ∧ oh ≠ 0 then
          [Tok.s "-aspect", Tok.s (toString ow ++ ":" ++ toString oh)]
        else [])
      else []) ++
      -- `if filters:` — a stored None or empty string is falsy
      (match fv with
        | .s f => if f = "" then [] else [Tok.s "-vf", Tok.s f]
        | _ => []) ++
      vd.specificList safe)
  | _, _, _ => .error "KeyError"

def videoCodecParse (vd : VideoDef) (opt : SpecDict) :
    Except String (List Tok) :=
  match baseCheck vd.codecName opt with
  | .error e => .error e
  | .ok _ =>
    match aspect_corrections (videoSrc (videoSafe0 vd opt)).1
        (videoSrc (videoSafe0 vd opt)).2 (videoW (videoSafe0 vd opt))
        (videoH (videoSafe0 vd opt)) (videoMode (videoSafe0 vd opt)) with
    | .error e => .error e
    | .ok (w2, h2, filters) =>
      videoList vd (videoW (videoSafe0 vd opt))
        (videoH (videoSafe0 vd opt))
        (vd.specificParse (videoSafe1 (videoSafe0 vd opt) w2 h2 filters))

/-- The `AudioNullCodec.parse_options`: unconditionally `['-an']` (overrides the
base class, no identity check, no schema). -/
def audioNullParse (_ : SpecDict) : Except String (List Tok) :=
  .ok [Tok.s "-an"]

/-- The `VideoNullCodec.parse_options`: unconditionally `['-vn']`. -/
def videoNullParse (_ : SpecDict) : Except String (List Tok) :=
  .ok [Tok.s "-vn"]

/-- The `AudioCopyCodec.parse_options`: unconditionally `['-acodec', 'copy']`. -/
def audioCopyParse (_ : SpecDict) : Except String (List Tok) :=
  .ok [Tok.s "-acodec", Tok.s "copy"]

/-- The `VideoCopyCodec.parse_options`: unconditionally `['-vcodec', 'copy']`. -/
def videoCopyParse (_ : SpecDict) : Except String (List Tok) :=
  .ok [Tok.s "-vcodec", Tok.s "copy"]

/-- The `quality`-flag pattern shared by `VorbisCodec` (`-qscale:a`) and
`TheoraCodec` (`-qscale:v`): the raw value is appended, not `str()`-ed. -/
def qualityList (flag : String) (safe : SpecDict) : List Tok :=
  match lookupD safe "quality" with
  | some v => [Tok.s flag, tokOfVal v]
  | _ => []

/-- The `H264Codec._codec_specific_produce_ffmpeg_list`. -/
def h264List (safe : SpecDict) : List Tok :=
  (match lookupD safe "preset" with
    | some v => [Tok.s "-preset", tokOfVal v] | _ => []) ++
  (match lookupD safe "quality" with
    | some v => [Tok.s "-crf", tokOfVal v] | _ => []) ++
  (match lookupD safe "profile" with
    | some v => [Tok.s "-profile", tokOfVal v] | _ => []) ++
  (match lookupD safe "tune" with
    | some v => [Tok.s "-tune", tokOfVal v] | _ => [])

/-- The `MpegCodec._codec_specific_parse_options`: re-inject the aspect ratio as
an `aspect=w:h` filter placed before any crop/pad filter. -/
def mpegHook (safe : SpecDict) : SpecDict :=
  match lookupD safe "width", lookupD safe "height" with
  | some (.i w), some (.i h) =>
    if w ≠ 0 ∧ h ≠ 0 then
      let tmp := "aspect=" ++ toString w ++ ":" ++ toString h
      match lookupD safe "aspect_filters" with
      | some (.s f) => upsertD safe "aspect_filters" (.s (tmp ++ "," ++ f))
      | _ => upsertD safe "aspect_filters" (.s tmp)
    else safe
  | _, _ => safe

/-- The `VorbisCodec`. -/
def vorbisDef : AudioDef :=
  { codecName := .s "vorbis", ffmpegName := "libvorbis",
    extraOpts := [("quality", .int)],
    specificList := qualityList "-qscale:a" }

/-- The `AacCodec` (with `aac_experimental_enable`). -/
def aacDef : AudioDef :=
  { codecName := .s "aac", ffmpegName := "aac",
    specificList := fun _ => [Tok.s "-strict", Tok.s "experimental"] }

/-- The `FdkAacCodec`. -/
def fdkAacDef : AudioDef :=
  { codecName := .s "libfdk_aac", ffmpegName := "libfdk_aac" }

/-- The `Mp3Codec`. -/
def mp3Def : AudioDef :=
  { codecName := .s "mp3", ffmpegName := "libmp3lame" }

/-- The `Mp2Codec`. -/
def mp2Def : AudioDef :=
  { codecName := .s "mp2", ffmpegName := "mp2" }

/-- The `TheoraCodec`. -/
def theoraDef : VideoDef :=
  { codecName := .s "theora", ffmpegName := "libtheora",
    extraOpts := [("quality", .int)],
    specificList := qualityList "-qscale:v" }

/-- The `H264Codec`. -/
def h264Def : VideoDef :=
  { codecName := .s "h264", ffmpegName := "libx264",
    extraOpts := [("preset", .str), ("quality", .int), ("profile", .str),
      ("tune", .str)],
    specificList := h264List }

/-- The `DivxCodec`. -/
def divxDef : VideoDef := { codecName := .s "divx", ffmpegName := "mpeg4" }

/-- The `Vp8Codec`. -/
def vp8Def : VideoDef := { codecName := .s "vp8", ffmpegName := "libvpx" }

/-- The `H263Codec`. -/
def h263Def : VideoDef := { codecName := .s "h263", ffmpegName := "h263" }

/-- The `FlvCodec`. -/
def flvDef : VideoDef := { codecName := .s "flv", ffmpegName := "flv" }

/-- The `Mpeg1Codec`. -/
def mpeg1Def : VideoDef :=
  { codecName := .s "mpeg1", ffmpegName := "mpeg1video",
    specificParse := mpegHook }

/-- The `Mpeg2Codec`. -/
def mpeg2Def : VideoDef :=
  { codecName := .s "mpeg2", ffmpegName := "mpeg2video",
    specificParse := mpegHook }

/-- A doctest codec as in `test_avcodecs` (`codec_name = ffmpeg_codec_name =
'doctest'`), used only for concrete checks below. -/
def doctestAudio : AudioDef :=
  { codecName := .s "doctest", ffmpegName := "doctest" }

/-- The video doctest codec. -/
def doctestVideo : VideoDef :=
  { codecName := .s "doctest", ffmpegName := "doctest" }

/-- A value of the top-level request dict: a scalar (e.g. the format name),
a single codec spec dict (legacy shorthand: its first value is not a dict),
or a mapping stream-ordinal → spec dict (its first value is a dict).  The
ordinal-keyed mapping is kept in insertion order, as CPython dicts are. -/
inductive TopVal where
  | prim (v : PyVal)
  | spec (s : SpecDict)
  | streams (m : List (Int × SpecDict))
deriving DecidableEq, Repr

/-- The caller's request dict passed to `Converter.parse_options`. -/
abbrev Request := List (String × TopVal)

/-- Modelled from the spec: `converter/formats.py` (the container-format
catalogue, a "pure data table" per spec §1) is not under `src/`.  Maps a
format name to the engine's format identifier. -/
def formatLookup : String → Option String
  | "ogg" => some "ogg"
  | "avi" => some "avi"
  | "mkv" => some "matroska"
  | "webm" => some "webm"
  | "mp4" => some "mp4"
  | "mov" => some "mov"
  | "mp3" => some "mp3"
  | "flv" => some "flv"
  | _ => Option.none

/-- Modelled from the spec: `BaseFormat.parse_options` (not under `src/`)
verifies the requested format name and emits `['-f', <engine format name>]`
(spec §6 flag vocabulary; `test_formats` shows
`OggFormat().parse_options({'format': 'ogg'}) == ['-f', 'ogg']`). -/
def formatParse (fname ffname : String) (opt : Request) :
    Except String (List Tok) :=
  match lookupD opt "format" with
  | some (.prim (.s f)) =>
    if f = fname then .ok [Tok.s "-f", Tok.s ffname]
    else .error "invalid format"
  | _ => .error "invalid format"

/-- The `Converter.audio_codecs`: codec identity → `parse_options` of the
matching codec class (`AudioNullCodec` is registered under its
`codec_name`, which is `None`). -/
def audioCodecFor : PyVal → Option (SpecDict → Except String (List Tok))
  | .null => some audioNullParse
  | .s "copy" => some audioCopyParse
  | .s "vorbis" => some (audioCodecParse vorbisDef)
  | .s "aac" => some (audioCodecParse aacDef)
  | .s "libfdk_aac" => some (audioCodecParse fdkAacDef)
  | .s "mp3" => some (audioCodecParse mp3Def)
  | .s "mp2" => some (audioCodecParse mp2Def)
  | _ => Option.none

/-- The `Converter.video_codecs`. -/
def videoCodecFor : PyVal → Option (SpecDict → Except String (List Tok))
  | .null => some videoNullParse
  | .s "copy" => some videoCopyParse
  | .s "theora" => some (videoCodecParse theoraDef)
  | .s "h264" => some (videoCodecParse h264Def)
  | .s "divx" => some (videoCodecParse divxDef)
  | .s "vp8" => some (videoCodecParse vp8Def)
  | .s "h263" => some (videoCodecParse h263Def)
  | .s "flv" => some (videoCodecParse flvDef)
  | .s "mpeg1" => some (videoCodecParse mpeg1Def)
  | .s "mpeg2" => some (videoCodecParse mpeg2Def)
  | _ => Option.none

/-- Modelled from the spec: the subtitle codec catalogue
(`subtitle_codec_list` is imported by `converter/__init__.py` but its
definition is not under `src/`).  Per spec §6 the null variant emits the
stream-disable flag `-sn`; it is the only subtitle codec the claims
exercise. -/
def subtitleCodecFor : PyVal → Option (SpecDict → Except String (List Tok))
  | .null => some (fun _ => .ok [Tok.s "-sn"])
  | _ => Option.none

/-- The legacy-shorthand normalization of `Converter.parse_options`:
`first = list(y.values())[0]; if not isinstance(first, dict): y = {0: y}`.
A scalar in place of a dict raises (`AttributeError` on `.values()`); an
empty dict hits the swallowed `IndexError` and yields no streams. -/
def normalizeStreams : TopVal → Except String (List (Int × SpecDict))
  | .prim _ => .error "AttributeError"
  | .spec s => .ok (match s with | [] => [] | _ => [(0, s)])
  | .streams m => .ok m

/-- The body of the per-stream loop: spec-shape check, `path`/`source`
co-occurrence checks, codec lookup, codec `parse_options`. -/
def streamEntryArgs
    (codecFor : PyVal → Option (SpecDict → Except String (List Tok)))
    (kind : String) (x : SpecDict) : Except String (List Tok) :=
  match lookupD x "codec" with
  | Option.none => .error ("Invalid " ++ kind ++ " codec specification")
  | some c =>
    if hasKeyD x "path" && ! hasKeyD x "source" then
      .error ("Cannot specify " ++ kind ++
        " path without FFMPEG source number")
    else if hasKeyD x "source" && ! hasKeyD x "path" then
      .error "Cannot specify alternate input source without a path"
    else match codecFor c with
      | some p => p x
      | _ => .error ("Requested unknown " ++ kind ++ " codec")

/-- The `for n in y: ... options.extend(...)` over the normalized entries, in
the mapping's iteration (= insertion) order. -/
def streamsArgs
    (codecFor : PyVal → Option (SpecDict → Except String (List Tok)))
    (kind : String) : List (Int × SpecDict) → Except String (List Tok)
  | [] => .ok []
  | (_, x) :: t =>
    match streamEntryArgs codecFor kind x with
    | .error e => .error e
    | .ok a =>
      match streamsArgs codecFor kind t with
      | .error e => .error e
      | .ok rest => .ok (a ++ rest)

/-- The default spec the source assigns for a missing stream key:
`{'codec': None}`. -/
def defaultStreamSpec : TopVal := TopVal.spec [("codec", PyVal.null)]

/-- The `if k not in opt: opt[k] = {'codec': None}` — dict insertion appends the
new key at the end of the key order. -/
def addDefault (opt : Request) (k : String) : Request :=
  if hasKeyD opt k then opt else opt ++ [(k, defaultStreamSpec)]

/-- The state of the caller's dict after the two default insertions
(`audio` first, then `subtitle`). -/
def withDefaults (opt : Request) : Request :=
  addDefault (addDefault opt "audio") "subtitle"

/-- The `opt[k]` at a point where the key is known to be present (the default
is unreachable at all use sites). -/
def fieldOf (opt : Request) (k : String) : TopVal :=
  match lookupD opt k with
  | some v => v
  | _ => defaultStreamSpec

/-- The audio block of `Converter.parse_options`, applied to the
already-defaulted dict. -/
def audioSegment (opt : Request) : Except String (List Tok) :=
  match normalizeStreams (fieldOf opt "audio") with
  | .error e => .error e
  | .ok entries => streamsArgs audioCodecFor "audio" entries

/-- The subtitle block. -/
def subtitleSegment (opt : Request) : Except String (List Tok) :=
  match normalizeStreams (fieldOf opt "subtitle") with
  | .error e => .error e
  | .ok entries => streamsArgs subtitleCodecFor "subtitle" entries

/-- The video block: a single optional spec, shape-checked
(`isinstance(x, dict) and 'codec' in x`), codec looked up and compiled. -/
def videoSegment (opt : Request) : Except String (List Tok) :=
  match lookupD opt "video" with
  | Option.none => .ok []
  | some (.spec x) =>
    (match lookupD x "codec" with
     | Option.none => .error "Invalid video codec specification"
     | some c =>
       match videoCodecFor c with
       | some p => p x
       | _ => .error "Requested unknown video codec")
  | some _ => .error "Invalid video codec specification"

/-- The format block: mandatory `format` key, known identifier, then the
format object's own `parse_options` on the full request. -/
def formatSegment (opt : Request) : Except String (List Tok) :=
  match lookupD opt "format" with
  | Option.none => .error "Format not specified"
  | some (.prim (.s f)) =>
    (match formatLookup f with
     | some ff => formatParse f ff opt
     | _ => .error ("Requested unknown format: " ++ f))
  | some _ => .error "Requested unknown format"

/-- The `if twopass == 1: optlist.extend(['-pass', '1']) elif twopass == 2:
...`; `None`/`False` are modelled as `0`. -/
def passFlags (twopass : Int) : List Tok :=
  if twopass = 1 then [Tok.s "-pass", Tok.s "1"]
  else if twopass = 2 then [Tok.s "-pass", Tok.s "2"]
  else []

/-- The `Converter.parse_options(opt, twopass)`.

Returns the compiled argument list together with the caller's dict as it
stands after the call — the source mutates `opt` in place when it inserts
the default `audio`/`subtitle` specs, and all other work happens on copies
or rebindings.  Block order is the source's: format (checked before the
stream blocks), the no-streams guard, default insertion, audio, subtitle,
video, concatenation `video + audio + subtitle + format`, pass flags. -/
def converterParseOptions (opt : Request) (twopass : Int) :
    Except String (List Tok × Request) :=
  match formatSegment opt with
  | .error e => .error e
  | .ok format_options =>
    if !hasKeyD opt "audio" && !hasKeyD opt "video" &&
        !hasKeyD opt "subtitle" then
      .error "Neither audio nor video nor subtitle streams requested"
    else
      let opt2 := withDefaults opt
      match audioSegment opt2 with
      | .error e => .error e
      | .ok audio_options =>
        match subtitleSegment opt2 with
        | .error e => .error e
        | .ok subtitle_options =>
          match videoSegment opt2 with
          | .error e => .error e
          | .ok video_options =>
            .ok (video_options ++ audio_options ++ subtitle_options ++
              format_options ++ passFlags twopass, opt2)

/-- Insertion step for `sortByOrdinal`. -/
def insertOrdinal (e : Int × SpecDict) :
    List (Int × SpecDict) → List (Int × SpecDict)
  | [] => [e]
  | x :: t => if e.1 ≤ x.1 then e :: x :: t else x :: insertOrdinal e t

/-- Stable sort of stream entries by ascending ordinal. -/
def sortByOrdinal (l : List (Int × SpecDict)) : List (Int × SpecDict) :=
  l.foldr insertOrdinal []

/-- The audio block as the spec describes it — entries compiled "in ordinal
order" (ascending stream ordinal), rather than in the mapping's insertion
order.  Stated only to compare with `audioSegment`, which follows the
source. -/
def audioSegmentOrdinal (opt : Request) : Except String (List Tok) :=
  match normalizeStreams (fieldOf opt "audio") with
  | .error e => .error e
  | .ok entries => streamsArgs audioCodecFor "audio" (sortByOrdinal entries)

/-- A request carrying explicit (null) audio and subtitle specs; parsing it
performs no default insertion. -/
def reqAV : Request :=
  [("format", .prim (.s "ogg")),
   ("audio", .spec [("codec", PyVal.null)]),
   ("subtitle", .spec [("codec", PyVal.null)])]

/-- A request with only a video spec; parsing it inserts the default audio
and subtitle specs into the caller's dict. -/
def reqVideoOnly : Request :=
  [("format", .prim (.s "ogg")),
   ("video", .spec [("codec", .s "theora")])]

/-- A request whose audio mapping lists ordinal 1 before ordinal 0. -/
def reqMultiAudio : Request :=
  [("format", .prim (.s "ogg")),
   ("audio", .streams
     [(1, [("codec", .s "copy")]),
      (0, [("codec", .s "mp3"), ("bitrate", .i 64)])]),
   ("subtitle", .spec [("codec", PyVal.null)])]

/-- The audio numeric-range table of `AudioCodec.parse_options`. -/
def audioRange : String → Option (Int × Int) := fun k =>
  if k = "channels" then some (1, 12)
  else if k = "bitrate" then some (8, 512)
  else if k = "samplerate" then some (1000, 50000)
  else Option.none

/-- The video numeric-range table of `VideoCodec.parse_options` (fps and
bitrate are deleted from the validated map when out of range; width and
height are treated as unspecified). -/
def videoRange : String → Option (Int × Int) := fun k =>
  if k = "fps" then some (1, 120)
  else if k = "bitrate" then some (16, 15000)
  else if k = "width" then some (16, 4000)
  else if k = "height" then some (16, 3000)
  else Option.none

/-- A value the compiler drops for a numeric option with range `r`: it
either fails `int()` coercion or coerces to an out-of-range number. -/
def dropValueB (r : Option (Int × Int)) (v : PyVal) : Bool :=
  match r with
  | some (lo, hi) =>
    (match coerceInt v with
     | some n => decide (n < lo ∨ hi < n)
     | _ => true)
  | _ => false

/-- Pointwise lookup equality of two option dicts (they may differ in key
order; no consumer of the validated map observes order). -/
def PEqD (s1 s2 : SpecDict) : Prop := ∀ k, lookupD s1 k = lookupD s2 k

/-- A map-refinement hook that observes and updates the dict only through
key lookups and assignments. -/
def RespectsPEq (f : SpecDict → SpecDict) : Prop :=
  ∀ s1 s2, PEqD s1 s2 → PEqD (f s1) (f s2)

/-- A list producer that observes the dict only through key lookups. -/
def ListRespectsPEq (g : SpecDict → List Tok) : Prop :=
  ∀ s1 s2, PEqD s1 s2 → g s1 = g s2

/-- The `int(x)` of an exact rational: truncation toward zero, as Python's
`int()` applied to a float. -/
def pyInt (q : ℚ) : Int := if 0 ≤ q then ⌊q⌋ else ⌈q⌉

/-- The percentage `Converter.convert` yields for a pass-one timecode:
`int((50.0 * timecode) / info.format.duration)`. -/
def pass1pct (duration tc : ℚ) : Int := pyInt (50 * tc / duration)

/-- Pass two: `int(50.0 + (50.0 * timecode) / info.format.duration)`. -/
def pass2pct (duration tc : ℚ) : Int := pyInt (50 + 50 * tc / duration)

/-- The two-pass progress sequence of `Converter.convert`: the generator's
yields for the pass-one timecodes followed by those for pass two (the two
sequential engine invocations). -/
def twoPassProgress (duration : ℚ) (tcs1 tcs2 : List ℚ) : List Int :=
  tcs1.map (pass1pct duration) ++ tcs2.map (pass2pct duration)

/-! ## Theorems -/

/-! ### Sanity checks mirroring the repository's own test expectations
(`test_avcodecs`, `test_converter` in `test/test.py`, adjusted where the
test file disagrees with the code under `src/`, which is the authority) -/

example :
    converterParseOptions
      [("format", .prim (.s "ogg")),
       ("video", .spec [("codec", .s "theora"), ("fps", .i 25)])] 0 =
    .ok ([Tok.s "-vcodec", Tok.s "libtheora", Tok.s "-r", Tok.s "25",
          Tok.s "-an", Tok.s "-sn", Tok.s "-f", Tok.s "ogg"],
      [("format", .prim (.s "ogg")),
       ("video", .spec [("codec", .s "theora"), ("fps", .i 25)]),
       ("audio", defaultStreamSpec), ("subtitle", defaultStreamSpec)]) := by
  decide
example :
    converterParseOptions
      [("format", .prim (.s "ogg")),
       ("audio", .spec [("codec", .s "copy")]),
       ("video", .spec [("codec", .s "copy")]),
       ("subtitle", .spec [("codec", .null)])] 0 =
    .ok ([Tok.s "-vcodec", Tok.s "copy", Tok.s "-acodec", Tok.s "copy",
          Tok.s "-sn", Tok.s "-f", Tok.s "ogg"],
      [("format", .prim (.s "ogg")),
       ("audio", .spec [("codec", .s "copy")]),
       ("video", .spec [("codec", .s "copy")]),
       ("subtitle", .spec [("codec", .null)])]) := by decide
example : converterParseOptions [] 0 = .error "Format not specified" := by
  decide
example : converterParseOptions [("format", .prim (.s "foo"))] 0 =
    .error "Requested unknown format: foo" := by decide
example : converterParseOptions [("format", .prim (.s "ogg"))] 0 =
    .error "Neither audio nor video nor subtitle streams requested" := by
  decide
example : converterParseOptions
    [("format", .prim (.s "ogg")), ("video", .prim (.s "whatever"))] 0 =
    .error "Invalid video codec specification" := by decide
example : converterParseOptions
    [("format", .prim (.s "ogg")),
     ("audio", .spec [("codec", .s "bogus")])] 0 =
    .error "Requested unknown audio codec" := by decide

example : audioCodecParse doctestAudio
    [("codec", .s "doctest"), ("channels", .i 0), ("bitrate", .i 0),
     ("samplerate", .i 0)] = .ok [Tok.s "-acodec", Tok.s "doctest"] := by
  decide
example : audioCodecParse doctestAudio
    [("codec", .s "doctest"), ("channels", .s "1"), ("bitrate", .s "64"),
     ("samplerate", .s "44100")] =
    .ok [Tok.s "-acodec", Tok.s "doctest", Tok.s "-ac", Tok.s "1",
      Tok.s "-ab", Tok.s "64k", Tok.s "-ar", Tok.s "44100"] := by decide
example : videoCodecParse doctestVideo
    [("codec", .s "doctest"), ("fps", .i 0), ("bitrate", .i 0),
     ("width", .i 0), ("height", .s "480")] =
    .ok [Tok.s "-vcodec", Tok.s "doctest"] := by decide
example : videoCodecParse doctestVideo
    [("codec", .s "doctest"), ("fps", .s "25"), ("bitrate", .s "300"),
     ("width", .i 320), ("height", .i 240)] =
    .ok [Tok.s "-vcodec", Tok.s "doctest", Tok.s "-r", Tok.s "25",
      Tok.s "-vb", Tok.s "300k", Tok.s "-s", Tok.s "320x240",
      Tok.s "-aspect", Tok.s "320:240"] := by decide
example : videoCodecParse doctestVideo
    [("codec", .s "doctest"), ("src_width", .i 640), ("src_height", .i 400),
     ("mode", .s "crop"), ("width", .i 320), ("height", .i 240)] =
    .ok [Tok.s "-vcodec", Tok.s "doctest", Tok.s "-s", Tok.s "384x240",
      Tok.s "-aspect", Tok.s "320:240", Tok.s "-vf",
      Tok.s "crop=320:240:32:0"] := by decide
example : videoCodecParse doctestVideo
    [("codec", .s "doctest"), ("src_width", .i 640), ("src_height", .i 480),
     ("mode", .s "pad"), ("width", .i 320), ("height", .i 200)] =
    .ok [Tok.s "-vcodec", Tok.s "doctest", Tok.s "-s", Tok.s "266x200",
      Tok.s "-aspect", Tok.s "320:200", Tok.s "-vf",
      Tok.s "pad=320:200:27:0"] := by decide
example : videoCodecParse doctestVideo
    [("codec", .s "doctest"), ("src_width", .i 640), ("src_height", .i 480),
     ("width", .i 320)] =
    .ok [Tok.s "-vcodec", Tok.s "doctest", Tok.s "-s", Tok.s "320x240"] := by
  decide
example : aspect_corrections 640 400 320 240 "crop" =
    .ok (384, 240, some "crop=320:240:32:0") := by decide
example : aspect_corrections 640 480 320 200 "crop" =
    .ok (320, 240, some "crop=320:200:0:20") := by decide
example : aspect_corrections 640 400 320 240 "pad" =
    .ok (320, 200, some "pad=320:240:0:20") := by decide
example : aspect_corrections 640 480 320 200 "pad" =
    .ok (266, 200, some "pad=320:200:27:0") := by decide
example : aspect_corrections 641 400 385 240 "crop" =
    .error "AssertionError" := by decide
example : aspect_corrections 641 400 385 240 "pad" =
    .ok (384, 240, some "pad=385:240:0:0") := by decide
example : ratRound (641 * 240) 400 = 385 := by decide
example : ratRound 7 2 = 4 := by decide
example : ratRound 5 2 = 2 := by decide


/-- Cross-multiplied rational comparison, decoded (positive denominators). -/
theorem ratLtB_iff {a b c d : Int} (hb : 0 < b) (hd : 0 < d) :
    ratLtB a b c d = true ↔ a * d < c * b := by
  have hbd : 0 < b * d := mul_pos hb hd
  have e1 : a * b * d * d = a * d * (b * d) := by ring
  have e2 : c * d * b * b = c * b * (b * d) := by ring
  simp only [ratLtB, decide_eq_true_eq, e1, e2]
  exact mul_lt_mul_right hbd

/-- For nonnegative operands, truncating division is floor division. -/
theorem le_ratTrunc_iff {a b c : Int} (hb : 0 < b) (ha : 0 ≤ a) :
    c ≤ ratTrunc a b ↔ c * b ≤ a := by
  unfold ratTrunc
  rw [Int.tdiv_eq_ediv ha (le_of_lt hb)]
  exact Int.le_ediv_iff_mul_le hb

/-- C7: for source dimensions 640×400, target 320×240, mode `crop`,
`_aspect_corrections` returns output size 384×240 with filter expression
`crop=320:240:32:0`. -/
theorem c7_crop_example :
    aspect_corrections 640 400 320 240 "crop" =
      .ok (384, 240, some "crop=320:240:32:0") := by decide

/-- C1 (amended): the no-filter short-circuit is decided by truncation, not
rounding: whenever source and both target dimensions are given and
`int(aspect * h) == w` — i.e. `trunc(sw*h/sh) = w` — `_aspect_corrections`
returns the target dimensions unchanged with no filter expression,
whatever the mode. -/
theorem c1_truncation_short_circuit (sw sh w h : Int) (mode : String)
    (hsw : sw ≠ 0) (hsh : sh ≠ 0) (hw : w ≠ 0) (hh : h ≠ 0)
    (heq : ratTrunc (sw * h) sh = w) :
    aspect_corrections sw sh w h mode = .ok (w, h, Option.none) := by
  simp [aspect_corrections, hsw, hsh, hw, hh, heq]

/-- Witness for `c1_truncation_short_circuit` at source 640×400, target
384×240, mode `crop`. -/
theorem c1_truncation_short_circuit_witness :
    ratTrunc (640 * 240) 400 = 384 ∧
    aspect_corrections 640 400 384 240 "crop" =
      .ok (384, 240, Option.none) :=
  ⟨by decide,
   c1_truncation_short_circuit 640 400 384 240 "crop" (by decide)
     (by decide) (by decide) (by decide) (by decide)⟩

/-- C1 counterexample: at source 641×400 and target 385×240 the spec's
rounding condition holds — `round(aspect*h) = round(384.6) = 385 = w` —
yet `_aspect_corrections` does not return the target unchanged with no
filter: the code's short-circuit truncates (`int(384.6) = 384 ≠ 385`), so
with mode `pad` it falls through and returns `(384, 240)` with a pad
filter expression. -/
theorem c1_round_counterexample :
    ratRound (641 * 240) 400 = 385 ∧
    ratTrunc (641 * 240) 400 = 384 ∧
    aspect_corrections 641 400 385 240 "pad" =
      .ok (384, 240, some "pad=385:240:0:0") ∧
    aspect_corrections 641 400 385 240 "pad" ≠
      .ok (385, 240, Option.none) :=
  ⟨by decide, by decide, by decide, by decide⟩

/-- C2 (amended): with positive source dimensions, validated target
dimensions (16–4000 × 16–3000), mode `crop`, and the no-filter
short-circuit not applying:
* if the target is not taller than the source
  (`target_aspect ≤ aspect`, i.e. `w*sh ≤ sw*h`), the intermediate width
  `w0 = int(h*aspect)` strictly exceeds the target width — the assertion
  cannot fire — and the result is `(w0, h)` with filter `crop=w:h:dw:0`,
  `dw = (w0-w)/2` integer-truncated;
* if the target is taller (`sw*h < w*sh`), the intermediate height
  `h0 = int(w/aspect)` is at least the target height, but may equal it, in
  which case the internal assertion `h0 > h` fires (AssertionError);
  whenever `h0 > h`, the result is `(w, h0)` with filter `crop=w:h:0:dh`,
  `dh = (h0-h)/2` integer-truncated. -/
theorem c2_crop_geometry (sw sh w h : Int)
    (hsw : 0 < sw) (hsh : 0 < sh)
    (hw1 : 16 ≤ w) (hw2 : w ≤ 4000) (hh1 : 16 ≤ h) (hh2 : h ≤ 3000)
    (hne : ratTrunc (sw * h) sh ≠ w) :
    (w * sh ≤ sw * h →
      w < ratTrunc (h * sw) sh ∧
      aspect_corrections sw sh w h "crop" =
        .ok (ratTrunc (h * sw) sh, h,
          some ("crop=" ++ toString w ++ ":" ++ toString h ++ ":" ++
            toString (ratTrunc (ratTrunc (h * sw) sh - w) 2) ++ ":0"))) ∧
    (sw * h < w * sh →
      h ≤ ratTrunc (w * sh) sw ∧
      (h < ratTrunc (w * sh) sw →
        aspect_corrections sw sh w h "crop" =
          .ok (w, ratTrunc (w * sh) sw,
            some ("crop=" ++ toString w ++ ":" ++ toString h ++ ":0:" ++
              toString (ratTrunc (ratTrunc (w * sh) sw - h) 2)))) ∧
      (ratTrunc (w * sh) sw = h →
        aspect_corrections sw sh w h "crop" = .error "AssertionError")) := by
  have hsw0 : sw ≠ 0 := ne_of_gt hsw
  have hsh0 : sh ≠ 0 := ne_of_gt hsh
  have hw0 : w ≠ 0 := by omega
  have hh0 : h ≠ 0 := by omega
  constructor
  · intro hwide
    have hltb : ratLtB sw sh w h = false := by
      cases hb : ratLtB sw sh w h with
      | false => rfl
      | true =>
        exact absurd ((ratLtB_iff hsh (by omega)).mp hb) (not_lt.mpr hwide)
    have hle : w ≤ ratTrunc (h * sw) sh := by
      refine (le_ratTrunc_iff hsh (by nlinarith)).mpr ?_
      rw [mul_comm h sw]; exact hwide
    have hne2 : ratTrunc (h * sw) sh ≠ w := by
      rw [mul_comm h sw]; exact hne
    have hlt : w < ratTrunc (h * sw) sh := lt_of_le_of_ne hle (Ne.symm hne2)
    refine ⟨hlt, ?_⟩
    simp [aspect_corrections, hsw0, hsh0, hw0, hh0, hne, hltb, hlt]
  · intro htall
    have hltb : ratLtB sw sh w h = true :=
      (ratLtB_iff hsh (by omega)).mpr htall
    have hle : h ≤ ratTrunc (w * sh) sw := by
      refine (le_ratTrunc_iff hsw (by nlinarith)).mpr ?_
      nlinarith
    refine ⟨hle, ?_, ?_⟩
    · intro hlt
      simp [aspect_corrections, hsw0, hsh0, hw0, hh0, hne, hltb, hlt]
    · intro heq
      have hnlt : ¬ h < ratTrunc (w * sh) sw := by omega
      simp [aspect_corrections, hsw0, hsh0, hw0, hh0, hne, hltb, hnlt]

/-- Witness for `c2_crop_geometry` at source 640×400, target 320×240
(wider-source branch; matches the repository's own test expectation). -/
theorem c2_crop_geometry_witness :
    ratTrunc (640 * 240) 400 ≠ 320 ∧
    320 < ratTrunc (240 * 640) 400 ∧
    aspect_corrections 640 400 320 240 "crop" =
      .ok (384, 240, some "crop=320:240:32:0") := by
  have h :=
    (c2_crop_geometry 640 400 320 240 (by decide) (by decide) (by decide)
      (by decide) (by decide) (by decide) (by decide)).1 (by decide)
  refine ⟨by decide, h.1, ?_⟩
  rw [h.2]; decide

/-- C2 counterexample: at source 641×400, target 385×240 (all within the
claim's validated ranges, short-circuit not applying), the crop branch
computes `h0 = int(385/ (641/400)) = 240 = h`, so the internal assertion
`h0 > h` fires — `_aspect_corrections` raises AssertionError instead of
emitting an offset. -/
theorem c2_crop_assert_counterexample :
    0 < (641 : Int) ∧ 0 < (400 : Int) ∧
    16 ≤ (385 : Int) ∧ (385 : Int) ≤ 4000 ∧
    16 ≤ (240 : Int) ∧ (240 : Int) ≤ 3000 ∧
    ratTrunc (641 * 240) 400 ≠ 385 ∧
    aspect_corrections 641 400 385 240 "crop" = .error "AssertionError" := by
  decide

/-- C4: the null and copy codec variants bypass the option schema and emit
exactly their single disable or pass-through flag list, for every option
map whatsoever; in particular they never raise, so a failure can only
occur (vacuously) when the caller's option map does not carry the matching
codec identity — they override `BaseCodec.parse_options` without invoking
its identity check. -/
theorem c4_null_copy_codecs (opt : SpecDict) :
    audioNullParse opt = .ok [Tok.s "-an"] ∧
    videoNullParse opt = .ok [Tok.s "-vn"] ∧
    audioCopyParse opt = .ok [Tok.s "-acodec", Tok.s "copy"] ∧
    videoCopyParse opt = .ok [Tok.s "-vcodec", Tok.s "copy"] :=
  ⟨rfl, rfl, rfl, rfl⟩

/-- Truncation of a nonnegative rational is its floor. -/
theorem pyInt_eq_floor {q : ℚ} (h : 0 ≤ q) : pyInt q = ⌊q⌋ := by
  simp [pyInt, h]

/-- Truncation toward zero is monotone. -/
theorem pyInt_mono {a b : ℚ} (h : a ≤ b) : pyInt a ≤ pyInt b := by
  by_cases ha : 0 ≤ a
  · have hb0 : 0 ≤ b := le_trans ha h
    simp only [pyInt, if_pos ha, if_pos hb0]
    exact Int.floor_mono h
  · by_cases hb0 : 0 ≤ b
    · simp only [pyInt, if_neg ha, if_pos hb0]
      have h1 : (⌈a⌉ : Int) ≤ 0 :=
        Int.ceil_le.mpr (by exact_mod_cast le_of_lt (not_le.mp ha))
      have h2 : (0 : Int) ≤ ⌊b⌋ := Int.floor_nonneg.mpr hb0
      omega
    · simp only [pyInt, if_neg ha, if_neg hb0]
      exact Int.ceil_mono h

/-- Pass-one percentages lie in [0, 50]. -/
theorem pass1pct_bounds {d tc : ℚ} (hd : 0 < d) (h0 : 0 ≤ tc)
    (h1 : tc ≤ d) : 0 ≤ pass1pct d tc ∧ pass1pct d tc ≤ 50 := by
  have hq0 : 0 ≤ 50 * tc / d := by positivity
  have hq1 : 50 * tc / d ≤ 50 := by
    rw [div_le_iff hd]; nlinarith
  unfold pass1pct
  rw [pyInt_eq_floor hq0]
  constructor
  · exact Int.le_floor.mpr (by exact_mod_cast hq0)
  · have h2 := Int.floor_mono hq1
    simpa using h2

/-- Pass-two percentages lie in [50, 100]. -/
theorem pass2pct_bounds {d tc : ℚ} (hd : 0 < d) (h0 : 0 ≤ tc)
    (h1 : tc ≤ d) : 50 ≤ pass2pct d tc ∧ pass2pct d tc ≤ 100 := by
  have hx0 : 0 ≤ 50 * tc / d := by positivity
  have hx1 : 50 * tc / d ≤ 50 := by
    rw [div_le_iff hd]; nlinarith
  have hq0 : (0 : ℚ) ≤ 50 + 50 * tc / d := by linarith
  unfold pass2pct
  rw [pyInt_eq_floor hq0]
  constructor
  · exact Int.le_floor.mpr (by push_cast; linarith)
  · have h2 : (50 : ℚ) + 50 * tc / d ≤ 100 := by linarith
    have h3 := Int.floor_mono h2
    simpa using h3

/-- Pass-one percentages are monotone in the timecode. -/
theorem pass1pct_mono {d a b : ℚ} (hd : 0 < d) (h : a ≤ b) :
    pass1pct d a ≤ pass1pct d b := by
  unfold pass1pct
  exact pyInt_mono (by gcongr)

/-- Pass-two percentages are monotone in the timecode. -/
theorem pass2pct_mono {d a b : ℚ} (hd : 0 < d) (h : a ≤ b) :
    pass2pct d a ≤ pass2pct d b := by
  unfold pass2pct
  exact pyInt_mono (by gcongr)

/-- C8: in a two-pass conversion with positive duration, if each engine
invocation yields non-decreasing timecodes within [0, duration], every
percentage yielded during pass one lies in [0, 50], every percentage
yielded during pass two lies in [50, 100], each half is monotonically
non-decreasing, and the whole emitted sequence stays within [0, 100]. -/
theorem c8_two_pass_progress (d : ℚ) (tcs1 tcs2 : List ℚ)
    (hd : 0 < d)
    (hb1 : ∀ tc ∈ tcs1, 0 ≤ tc ∧ tc ≤ d)
    (hb2 : ∀ tc ∈ tcs2, 0 ≤ tc ∧ tc ≤ d)
    (hm1 : List.Chain' (· ≤ ·) tcs1)
    (hm2 : List.Chain' (· ≤ ·) tcs2) :
    (∀ p ∈ tcs1.map (pass1pct d), 0 ≤ p ∧ p ≤ 50) ∧
    (∀ p ∈ tcs2.map (pass2pct d), 50 ≤ p ∧ p ≤ 100) ∧
    List.Chain' (· ≤ ·) (tcs1.map (pass1pct d)) ∧
    List.Chain' (· ≤ ·) (tcs2.map (pass2pct d)) ∧
    (∀ p ∈ twoPassProgress d tcs1 tcs2, 0 ≤ p ∧ p ≤ 100) := by
  have g1 : ∀ p ∈ tcs1.map (pass1pct d), 0 ≤ p ∧ p ≤ 50 := by
    intro p hp
    rcases List.mem_map.mp hp with ⟨tc, htc, rfl⟩
    exact pass1pct_bounds hd (hb1 tc htc).1 (hb1 tc htc).2
  have g2 : ∀ p ∈ tcs2.map (pass2pct d), 50 ≤ p ∧ p ≤ 100 := by
    intro p hp
    rcases List.mem_map.mp hp with ⟨tc, htc, rfl⟩
    exact pass2pct_bounds hd (hb2 tc htc).1 (hb2 tc htc).2
  refine ⟨g1, g2, ?_, ?_, ?_⟩
  · exact (List.chain'_map _).mpr (hm1.imp fun _ _ hab => pass1pct_mono hd hab)
  · exact (List.chain'_map _).mpr (hm2.imp fun _ _ hab => pass2pct_mono hd hab)
  · intro p hp
    rcases List.mem_append.mp hp with h | h
    · have := g1 p h; omega
    · have := g2 p h; omega

/-- Witness for `c8_two_pass_progress` at duration 32 with pass timecodes
[0, 16, 32] and [0, 32]. -/
theorem c8_two_pass_progress_witness :
    (0 : ℚ) < 32 ∧
    (∀ p ∈ ([0, 16, 32] : List ℚ).map (pass1pct 32), 0 ≤ p ∧ p ≤ 50) ∧
    (∀ p ∈ ([0, 32] : List ℚ).map (pass2pct 32), 50 ≤ p ∧ p ≤ 100) ∧
    (∀ p ∈ twoPassProgress 32 [0, 16, 32] [0, 32], 0 ≤ p ∧ p ≤ 100) := by
  have h := c8_two_pass_progress 32 [0, 16, 32] [0, 32] (by norm_num)
    (by intro tc htc; fin_cases htc <;> norm_num)
    (by intro tc htc; fin_cases htc <;> norm_num)
    (by simp [List.chain'_cons] <;> norm_num)
    (by simp [List.chain'_cons] <;> norm_num)
  exact ⟨by norm_num, h.1, h.2.1, h.2.2.2.2⟩

/-! ### Dictionary lemmas -/

/-- Lookup over a concatenation: the left dict wins. -/
theorem lookupD_append {α : Type} (l1 l2 : List (String × α)) (k : String) :
    lookupD (l1 ++ l2) k =
      match lookupD l1 k with
      | some v => some v
      | _ => lookupD l2 k := by
  induction l1 with
  | nil => simp [lookupD]
  | cons p t ih =>
    obtain ⟨k1, v⟩ := p
    by_cases h : k1 = k
    · simp [lookupD, h]
    · simp only [List.cons_append, lookupD, if_neg h]
      exact ih

/-- The `addDefault` leaves every other key's binding unchanged. -/
theorem lookupD_addDefault_ne {opt : Request} {k k1 : String}
    (h : k1 ≠ k) : lookupD (addDefault opt k) k1 = lookupD opt k1 := by
  unfold addDefault
  by_cases hk : hasKeyD opt k
  · simp [hk]
  · simp only [hk, Bool.false_eq_true, if_false, lookupD_append]
    cases hx : lookupD opt k1 with
    | some v => rfl
    | none =>
      have h1 : ¬ k = k1 := fun he => h he.symm
      simp [lookupD, h1]

/-- After `addDefault`, the key is present. -/
theorem hasKeyD_addDefault_self (opt : Request) (k : String) :
    hasKeyD (addDefault opt k) k = true := by
  unfold addDefault
  by_cases hk : hasKeyD opt k
  · simpa [hk] using hk
  · have hnone : lookupD opt k = Option.none := by
      unfold hasKeyD at hk
      exact Option.not_isSome_iff_eq_none.mp (by simpa using hk)
    simp [hasKeyD, hk, lookupD_append, hnone, lookupD]

/-- The `addDefault` preserves key presence. -/
theorem hasKeyD_addDefault_mono {opt : Request} {k k1 : String}
    (h : hasKeyD opt k1 = true) :
    hasKeyD (addDefault opt k) k1 = true := by
  by_cases he : k1 = k
  · rw [he]; exact hasKeyD_addDefault_self opt k
  · unfold hasKeyD at h ⊢
    rw [lookupD_addDefault_ne he]
    exact h

/-- The `addDefault` is the identity when the key is already present. -/
theorem addDefault_of_hasKey {opt : Request} {k : String}
    (h : hasKeyD opt k = true) : addDefault opt k = opt := by
  unfold addDefault
  simp [h]

/-- A missing key is bound to the default spec by `addDefault`. -/
theorem lookupD_addDefault_absent {opt : Request} {k : String}
    (h : hasKeyD opt k = false) :
    lookupD (addDefault opt k) k = some defaultStreamSpec := by
  have hnone : lookupD opt k = Option.none := by
    unfold hasKeyD at h
    exact Option.not_isSome_iff_eq_none.mp (by simp [h])
  unfold addDefault
  simp [h, lookupD_append, hnone, lookupD]

/-- The defaulted dict always carries an `audio` key. -/
theorem hasKeyD_withDefaults_audio (opt : Request) :
    hasKeyD (withDefaults opt) "audio" = true :=
  hasKeyD_addDefault_mono (hasKeyD_addDefault_self opt "audio")

/-- The defaulted dict always carries a `subtitle` key. -/
theorem hasKeyD_withDefaults_subtitle (opt : Request) :
    hasKeyD (withDefaults opt) "subtitle" = true :=
  hasKeyD_addDefault_self _ _

/-- Defaulting is idempotent. -/
theorem withDefaults_idem (opt : Request) :
    withDefaults (withDefaults opt) = withDefaults opt := by
  show addDefault (addDefault (withDefaults opt) "audio") "subtitle" = _
  rw [addDefault_of_hasKey (hasKeyD_withDefaults_audio opt),
    addDefault_of_hasKey (hasKeyD_withDefaults_subtitle opt)]

/-- Defaulting is invisible to every key other than `audio`/`subtitle`. -/
theorem lookupD_withDefaults_ne {opt : Request} {k : String}
    (h1 : k ≠ "audio") (h2 : k ≠ "subtitle") :
    lookupD (withDefaults opt) k = lookupD opt k := by
  show lookupD (addDefault (addDefault opt "audio") "subtitle") k = _
  rw [lookupD_addDefault_ne h2, lookupD_addDefault_ne h1]

/-- When both stream keys are present, defaulting is the identity (the
source performs no mutation). -/
theorem withDefaults_of_hasKeys {opt : Request}
    (ha : hasKeyD opt "audio" = true)
    (hs : hasKeyD opt "subtitle" = true) : withDefaults opt = opt := by
  show addDefault (addDefault opt "audio") "subtitle" = opt
  rw [addDefault_of_hasKey ha, addDefault_of_hasKey hs]

/-- The `formatParse` reads the request only through its `format` key. -/
theorem formatParse_congr {opt1 opt2 : Request} (f ff : String)
    (h : lookupD opt1 "format" = lookupD opt2 "format") :
    formatParse f ff opt1 = formatParse f ff opt2 := by
  unfold formatParse
  rw [h]

/-- The `formatSegment` reads the request only through its `format` key. -/
theorem formatSegment_congr {opt1 opt2 : Request}
    (h : lookupD opt1 "format" = lookupD opt2 "format") :
    formatSegment opt1 = formatSegment opt2 := by
  unfold formatSegment formatParse
  rw [h]

/-! ### Inversion of `Converter.parse_options` -/

/-- A successful run of `converterParseOptions` decomposes into successful
segment compilations concatenated in source order (video, audio, subtitle,
format, pass flags), with the returned request being the defaulted one. -/
theorem converterParseOptions_ok_iff (opt : Request) (tp : Int)
    (args : List Tok) (post : Request) :
    converterParseOptions opt tp = .ok (args, post) ↔
    ∃ fa aa sa va,
      formatSegment opt = .ok fa ∧
      (!hasKeyD opt "audio" && !hasKeyD opt "video" &&
        !hasKeyD opt "subtitle") = false ∧
      audioSegment (withDefaults opt) = .ok aa ∧
      subtitleSegment (withDefaults opt) = .ok sa ∧
      videoSegment (withDefaults opt) = .ok va ∧
      args = va ++ aa ++ sa ++ fa ++ passFlags tp ∧
      post = withDefaults opt := by
  constructor
  · intro hok
    unfold converterParseOptions at hok
    cases hfs : formatSegment opt with
    | error e => rw [hfs] at hok; exact absurd hok (by simp)
    | ok fa =>
      rw [hfs] at hok
      cases hg : (!hasKeyD opt "audio" && !hasKeyD opt "video" &&
          !hasKeyD opt "subtitle") with
      | true => rw [hg] at hok; exact absurd hok (by simp)
      | false =>
        rw [hg] at hok
        simp only [Bool.false_eq_true, if_false] at hok
        cases has : audioSegment (withDefaults opt) with
        | error e => rw [has] at hok; exact absurd hok (by simp)
        | ok aa =>
          rw [has] at hok
          cases hss : subtitleSegment (withDefaults opt) with
          | error e => rw [hss] at hok; exact absurd hok (by simp)
          | ok sa =>
            rw [hss] at hok
            cases hvs : videoSegment (withDefaults opt) with
            | error e => rw [hvs] at hok; exact absurd hok (by simp)
            | ok va =>
              rw [hvs] at hok
              simp only [Except.ok.injEq, Prod.mk.injEq] at hok
              exact ⟨fa, aa, sa, va, rfl, rfl, rfl, rfl, rfl,
                hok.1.symm, hok.2.symm⟩
  · rintro ⟨fa, aa, sa, va, hfs, hg, has, hss, hvs, rfl, rfl⟩
    unfold converterParseOptions
    rw [hfs, hg]
    simp only [Bool.false_eq_true, if_false]
    rw [has, hss, hvs]

/-! ### C3: mutation of the caller's request -/

/-- C3 (amended): `Converter.parse_options` mutates the caller's request
exactly by inserting the default `{'codec': None}` specs for missing
`audio`/`subtitle` keys; when the request already carries both keys, a
successful call leaves the caller's dict (including all nested values)
unchanged. -/
theorem c3_no_mutation_when_streams_present (opt : Request) (tp : Int)
    (args : List Tok) (post : Request)
    (ha : hasKeyD opt "audio" = true)
    (hs : hasKeyD opt "subtitle" = true)
    (hok : converterParseOptions opt tp = .ok (args, post)) :
    post = opt := by
  obtain ⟨fa, aa, sa, va, _, _, _, _, _, _, hpost⟩ :=
    (converterParseOptions_ok_iff opt tp args post).mp hok
  rw [hpost, withDefaults_of_hasKeys ha hs]

/-- Witness for `c3_no_mutation_when_streams_present`: a request carrying
both stream keys parses successfully and comes back unchanged. -/
theorem c3_no_mutation_witness :
    hasKeyD reqAV "audio" = true ∧ hasKeyD reqAV "subtitle" = true ∧
    converterParseOptions reqAV 0 =
      .ok ([Tok.s "-an", Tok.s "-sn", Tok.s "-f", Tok.s "ogg"], reqAV) := by
  refine ⟨by decide, by decide, ?_⟩
  have hok : converterParseOptions reqAV 0 =
      .ok ([Tok.s "-an", Tok.s "-sn", Tok.s "-f", Tok.s "ogg"],
        withDefaults reqAV) := by decide
  have hpost := c3_no_mutation_when_streams_present reqAV 0
    [Tok.s "-an", Tok.s "-sn", Tok.s "-f", Tok.s "ogg"]
    (withDefaults reqAV) (by decide) (by decide) hok
  rw [← hpost]
  exact hok

/-- C3 counterexample: a request lacking the `audio`/`subtitle` keys is
successfully parsed but the caller's dict is not identical afterwards —
the default audio and subtitle specs have been inserted into it. -/
theorem c3_mutation_counterexample :
    converterParseOptions reqVideoOnly 0 =
      .ok ([Tok.s "-vcodec", Tok.s "libtheora", Tok.s "-an", Tok.s "-sn",
            Tok.s "-f", Tok.s "ogg"],
        reqVideoOnly ++ [("audio", defaultStreamSpec),
          ("subtitle", defaultStreamSpec)]) ∧
    reqVideoOnly ++ [("audio", defaultStreamSpec),
      ("subtitle", defaultStreamSpec)] ≠ reqVideoOnly := by
  refine ⟨by decide, by decide⟩

/-! ### C9: idempotence -/

/-- C9: compilation is deterministic and idempotent under the source's
in-place defaulting: a successful `parse_options` call returns a mutated
request on which a second call with the same pass number yields the very
same argument list (and performs no further mutation). -/
theorem c9_idempotent (opt : Request) (tp : Int) (args : List Tok)
    (post : Request)
    (hok : converterParseOptions opt tp = .ok (args, post)) :
    converterParseOptions post tp = .ok (args, post) := by
  obtain ⟨fa, aa, sa, va, hfs, _, has, hss, hvs, harg, hpost⟩ :=
    (converterParseOptions_ok_iff opt tp args post).mp hok
  subst hpost
  apply (converterParseOptions_ok_iff (withDefaults opt) tp args
    (withDefaults opt)).mpr
  refine ⟨fa, aa, sa, va, ?_, ?_, ?_, ?_, ?_, harg, ?_⟩
  · rw [formatSegment_congr
      (lookupD_withDefaults_ne (by decide) (by decide))]
    exact hfs
  · simp [hasKeyD_withDefaults_audio opt]
  · rw [withDefaults_idem]; exact has
  · rw [withDefaults_idem]; exact hss
  · rw [withDefaults_idem]; exact hvs
  · rw [withDefaults_idem]

/-- Witness for `c9_idempotent` on a concrete request (note the first call
mutates the request by inserting the defaults; the second call returns the
same list). -/
theorem c9_idempotent_witness :
    converterParseOptions
      (reqVideoOnly ++ [("audio", defaultStreamSpec),
        ("subtitle", defaultStreamSpec)]) 0 =
    .ok ([Tok.s "-vcodec", Tok.s "libtheora", Tok.s "-an", Tok.s "-sn",
          Tok.s "-f", Tok.s "ogg"],
      reqVideoOnly ++ [("audio", defaultStreamSpec),
        ("subtitle", defaultStreamSpec)]) := by
  apply c9_idempotent reqVideoOnly 0
  decide

/-! ### C10: omitted stream specs are disabled -/

/-- A request without an `audio` key gets the default spec, which compiles
to exactly `['-an']`. -/
theorem audioSegment_default {opt : Request}
    (h : hasKeyD opt "audio" = false) :
    audioSegment (withDefaults opt) = .ok [Tok.s "-an"] := by
  have hl : lookupD (withDefaults opt) "audio" = some defaultStreamSpec := by
    show lookupD (addDefault (addDefault opt "audio") "subtitle") "audio" =
      _
    rw [lookupD_addDefault_ne (by decide)]
    exact lookupD_addDefault_absent h
  unfold audioSegment fieldOf
  rw [hl]
  decide

/-- A request without a `subtitle` key gets the default spec, which
compiles to exactly `['-sn']`. -/
theorem subtitleSegment_default {opt : Request}
    (h : hasKeyD opt "subtitle" = false) :
    subtitleSegment (withDefaults opt) = .ok [Tok.s "-sn"] := by
  have hl : lookupD (withDefaults opt) "subtitle" =
      some defaultStreamSpec := by
    show lookupD (addDefault (addDefault opt "audio") "subtitle")
      "subtitle" = _
    by_cases hk : hasKeyD (addDefault opt "audio") "subtitle"
    · have : hasKeyD opt "subtitle" = true := by
        unfold hasKeyD at hk ⊢
        rwa [lookupD_addDefault_ne (by decide)] at hk
      rw [this] at h; exact absurd h (by simp)
    · exact lookupD_addDefault_absent (by simpa using hk)
  unfold subtitleSegment fieldOf
  rw [hl]
  decide

/-- C10: for every accepted request with no `audio` key the compiled list
contains `-an`, and for every accepted request with no `subtitle` key it
contains `-sn` — omitting a stream spec disables that stream. -/
theorem c10_default_disable_flags (opt : Request) (tp : Int)
    (args : List Tok) (post : Request)
    (hok : converterParseOptions opt tp = .ok (args, post)) :
    (hasKeyD opt "audio" = false → Tok.s "-an" ∈ args) ∧
    (hasKeyD opt "subtitle" = false → Tok.s "-sn" ∈ args) := by
  obtain ⟨fa, aa, sa, va, _, _, has, hss, _, harg, _⟩ :=
    (converterParseOptions_ok_iff opt tp args post).mp hok
  subst harg
  constructor
  · intro h
    have : aa = [Tok.s "-an"] := by
      have h2 := (audioSegment_default h).symm.trans has
      exact (Except.ok.inj h2).symm
    subst this
    simp
  · intro h
    have : sa = [Tok.s "-sn"] := by
      have h2 := (subtitleSegment_default h).symm.trans hss
      exact (Except.ok.inj h2).symm
    subst this
    simp

/-- Witness for `c10_default_disable_flags` on a video-only request. -/
theorem c10_default_disable_flags_witness :
    hasKeyD reqVideoOnly "audio" = false ∧
    hasKeyD reqVideoOnly "subtitle" = false ∧
    Tok.s "-an" ∈ [Tok.s "-vcodec", Tok.s "libtheora", Tok.s "-an",
      Tok.s "-sn", Tok.s "-f", Tok.s "ogg"] ∧
    Tok.s "-sn" ∈ [Tok.s "-vcodec", Tok.s "libtheora", Tok.s "-an",
      Tok.s "-sn", Tok.s "-f", Tok.s "ogg"] := by
  have h := c10_default_disable_flags reqVideoOnly 0
    [Tok.s "-vcodec", Tok.s "libtheora", Tok.s "-an", Tok.s "-sn",
      Tok.s "-f", Tok.s "ogg"]
    (reqVideoOnly ++ [("audio", defaultStreamSpec),
      ("subtitle", defaultStreamSpec)]) (by decide)
  exact ⟨by decide, by decide, h.1 (by decide), h.2 (by decide)⟩

/-! ### C6: concatenation order -/

/-- C6 (amended): every accepted request compiles to exactly the video
codec arguments, then all audio arguments in the order the audio entries
appear in the caller's mapping (insertion order; the legacy single spec
counts as ordinal 0), then the subtitle arguments likewise, then the
container-format arguments, and finally the `-pass 1`/`-pass 2` tokens
when a pass number is given. -/
theorem c6_concat_order (opt : Request) (tp : Int) (args : List Tok)
    (post : Request)
    (hok : converterParseOptions opt tp = .ok (args, post)) :
    ∃ va aa sa fa,
      videoSegment (withDefaults opt) = .ok va ∧
      audioSegment (withDefaults opt) = .ok aa ∧
      subtitleSegment (withDefaults opt) = .ok sa ∧
      formatSegment opt = .ok fa ∧
      args = va ++ aa ++ sa ++ fa ++ passFlags tp := by
  obtain ⟨fa, aa, sa, va, hfs, _, has, hss, hvs, harg, _⟩ :=
    (converterParseOptions_ok_iff opt tp args post).mp hok
  exact ⟨va, aa, sa, fa, hvs, has, hss, hfs, harg⟩

/-- Witness for `c6_concat_order` on a two-pass request. -/
theorem c6_concat_order_witness :
    converterParseOptions reqAV 2 =
      .ok ([Tok.s "-an", Tok.s "-sn", Tok.s "-f", Tok.s "ogg",
        Tok.s "-pass", Tok.s "2"], reqAV) ∧
    [Tok.s "-an", Tok.s "-sn", Tok.s "-f", Tok.s "ogg",
      Tok.s "-pass", Tok.s "2"] =
      ([] : List Tok) ++ [Tok.s "-an"] ++ [Tok.s "-sn"] ++
        [Tok.s "-f", Tok.s "ogg"] ++ passFlags 2 := by
  obtain ⟨va, aa, sa, fa, hvs, has, hss, hfs, harg⟩ :=
    c6_concat_order reqAV 2
      [Tok.s "-an", Tok.s "-sn", Tok.s "-f", Tok.s "ogg",
        Tok.s "-pass", Tok.s "2"] reqAV (by decide)
  refine ⟨by decide, ?_⟩
  have hva : va = ([] : List Tok) :=
    Except.ok.inj (hvs.symm.trans (by decide))
  have haa : aa = [Tok.s "-an"] :=
    Except.ok.inj (has.symm.trans (by decide))
  have hsa : sa = [Tok.s "-sn"] :=
    Except.ok.inj (hss.symm.trans (by decide))
  have hfa : fa = [Tok.s "-f", Tok.s "ogg"] :=
    Except.ok.inj (hfs.symm.trans (by decide))
  rw [hva, haa, hsa, hfa] at harg
  exact harg

/-- C6 counterexample: with an audio mapping listing ordinal 1 (`copy`)
before ordinal 0 (`mp3`), the compiled list follows the mapping's
insertion order, not ascending stream-ordinal order — the claim's
ordinal-ordered concatenation differs from the actual output. -/
theorem c6_order_counterexample :
    converterParseOptions reqMultiAudio 0 =
      .ok ([Tok.s "-acodec", Tok.s "copy", Tok.s "-acodec",
        Tok.s "libmp3lame", Tok.s "-ab", Tok.s "64k", Tok.s "-sn",
        Tok.s "-f", Tok.s "ogg"], reqMultiAudio) ∧
    audioSegmentOrdinal (withDefaults reqMultiAudio) =
      .ok [Tok.s "-acodec", Tok.s "libmp3lame", Tok.s "-ab", Tok.s "64k",
        Tok.s "-acodec", Tok.s "copy"] ∧
    videoSegment (withDefaults reqMultiAudio) = .ok [] ∧
    subtitleSegment (withDefaults reqMultiAudio) = .ok [Tok.s "-sn"] ∧
    formatSegment reqMultiAudio = .ok [Tok.s "-f", Tok.s "ogg"] ∧
    [Tok.s "-acodec", Tok.s "copy", Tok.s "-acodec", Tok.s "libmp3lame",
      Tok.s "-ab", Tok.s "64k", Tok.s "-sn", Tok.s "-f", Tok.s "ogg"] ≠
      ([] : List Tok) ++
        [Tok.s "-acodec", Tok.s "libmp3lame", Tok.s "-ab", Tok.s "64k",
          Tok.s "-acodec", Tok.s "copy"] ++ [Tok.s "-sn"] ++
        [Tok.s "-f", Tok.s "ogg"] ++ passFlags 0 := by
  refine ⟨by decide, by decide, by decide, by decide, by decide, by decide⟩

/-! ### C5: dict algebra for the drop semantics -/

/-- The assigned key reads back the assigned value. -/
theorem lookupD_upsert_self {α : Type} (d : List (String × α)) (k : String)
    (v : α) : lookupD (upsertD d k v) k = some v := by
  induction d with
  | nil => simp [upsertD, lookupD]
  | cons p t ih =>
    obtain ⟨k1, v1⟩ := p
    by_cases h : k1 = k
    · simp [upsertD, lookupD, h]
    · simp [upsertD, lookupD, h, ih]

/-- Assignment leaves other keys' bindings unchanged. -/
theorem lookupD_upsert_ne {α : Type} {q k : String} (h : q ≠ k)
    (d : List (String × α)) (v : α) :
    lookupD (upsertD d k v) q = lookupD d q := by
  have hkq : ¬ k = q := fun he => h he.symm
  induction d with
  | nil => simp [upsertD, lookupD, hkq]
  | cons p t ih =>
    obtain ⟨k1, v1⟩ := p
    by_cases h1 : k1 = k
    · subst h1
      simp [upsertD, lookupD, hkq]
    · by_cases h2 : k1 = q
      · simp [upsertD, lookupD, h1, h2, h]
      · simp [upsertD, lookupD, h1, h2, ih]

/-- Deleting a key reads back nothing. -/
theorem lookupD_erase_self {α : Type} (d : List (String × α)) (k : String) :
    lookupD (eraseD d k) k = Option.none := by
  induction d with
  | nil => rfl
  | cons p t ih =>
    obtain ⟨k1, v1⟩ := p
    by_cases h : k1 = k
    · simp [eraseD, h, ih]
    · simp [eraseD, lookupD, h, ih]

/-- Deletion leaves other keys' bindings unchanged. -/
theorem lookupD_erase_ne {α : Type} {q k : String} (h : q ≠ k)
    (d : List (String × α)) :
    lookupD (eraseD d k) q = lookupD d q := by
  have hkq : ¬ k = q := fun he => h he.symm
  induction d with
  | nil => rfl
  | cons p t ih =>
    obtain ⟨k1, v1⟩ := p
    by_cases h1 : k1 = k
    · subst h1
      simp [eraseD, lookupD, hkq, ih]
    · by_cases h2 : k1 = q
      · simp [eraseD, lookupD, h1, h2, h]
      · simp [eraseD, lookupD, h1, h2, ih]

/-- Deleting the key just assigned deletes the old binding. -/
theorem eraseD_upsert_self {α : Type} (d : List (String × α)) (k : String)
    (v : α) : eraseD (upsertD d k v) k = eraseD d k := by
  induction d with
  | nil => simp [upsertD, eraseD]
  | cons p t ih =>
    obtain ⟨k1, v1⟩ := p
    by_cases h : k1 = k
    · simp [upsertD, eraseD, h]
    · simp [upsertD, eraseD, h, ih]

/-- Assignment and deletion of distinct keys commute. -/
theorem upsertD_erase_comm {α : Type} {k1 k : String} (h : k1 ≠ k)
    (d : List (String × α)) (v : α) :
    upsertD (eraseD d k) k1 v = eraseD (upsertD d k1 v) k := by
  induction d with
  | nil => simp [upsertD, eraseD, h]
  | cons p t ih =>
    obtain ⟨k2, v2⟩ := p
    by_cases h2 : k2 = k
    · subst h2
      have h4 : ¬ k2 = k1 := fun he => h (he.symm)
      simp [upsertD, eraseD, h4, ih]
    · by_cases h3 : k2 = k1
      · simp [upsertD, eraseD, h2, h3, h]
      · simp [upsertD, eraseD, h2, h3, ih]

/-- Deletions commute. -/
theorem eraseD_comm {α : Type} (d : List (String × α)) (k1 k2 : String) :
    eraseD (eraseD d k1) k2 = eraseD (eraseD d k2) k1 := by
  induction d with
  | nil => rfl
  | cons p t ih =>
    obtain ⟨ka, va⟩ := p
    by_cases ha : ka = k1
    · by_cases hb : ka = k2
      · have h12 : k1 = k2 := ha.symm.trans hb
        subst h12
        rfl
      · subst ha
        simp [eraseD, hb, ih]
    · by_cases hb : ka = k2
      · subst hb
        simp [eraseD, ha, ih]
      · simp [eraseD, ha, hb, ih]

/-- Deleting an absent key does nothing. -/
theorem eraseD_of_lookup_none {α : Type} {d : List (String × α)}
    {k : String} (h : lookupD d k = Option.none) : eraseD d k = d := by
  induction d with
  | nil => rfl
  | cons p t ih =>
    obtain ⟨k1, v1⟩ := p
    by_cases h1 : k1 = k
    · rw [lookupD, if_pos h1] at h; exact absurd h (by simp)
    · rw [lookupD, if_neg h1] at h
      simp [eraseD, h1, ih h]

/-- An absent key looks up to nothing. -/
theorem lookupD_eq_none_of_not_mem {α : Type} {d : List (String × α)}
    {k : String} (h : k ∉ keysD d) : lookupD d k = Option.none := by
  induction d with
  | nil => rfl
  | cons p t ih =>
    obtain ⟨k1, v1⟩ := p
    simp only [keysD, List.map_cons, List.mem_cons] at h
    push_neg at h
    rw [lookupD, if_neg (fun he => h.1 he.symm)]
    exact ih (by simpa [keysD] using h.2)

/-- The `safe_options` commutes with deleting a key from both the accumulator
and the input. -/
theorem safeOptionsAux_erase (enc : List (String × PyType)) (k : String)
    (t : SpecDict) :
    ∀ acc, safeOptionsAux enc (eraseD acc k) (eraseD t k) =
      eraseD (safeOptionsAux enc acc t) k := by
  induction t with
  | nil => intro acc; rfl
  | cons p t ih =>
    intro acc
    obtain ⟨k1, v1⟩ := p
    by_cases hk : k1 = k
    · subst hk
      rw [show eraseD ((k1, v1) :: t) k1 = eraseD t k1 from by
        simp [eraseD]]
      cases he : lookupD enc k1 with
      | none => rw [show safeOptionsAux enc acc ((k1, v1) :: t) =
          safeOptionsAux enc acc t from by simp [safeOptionsAux, he]]
                exact ih acc
      | some ty =>
        cases hc : pyCoerce ty v1 with
        | none => rw [show safeOptionsAux enc acc ((k1, v1) :: t) =
            safeOptionsAux enc acc t from by simp [safeOptionsAux, he, hc]]
                  exact ih acc
        | some w =>
          rw [show safeOptionsAux enc acc ((k1, v1) :: t) =
            safeOptionsAux enc (upsertD acc k1 w) t from by
              simp [safeOptionsAux, he, hc]]
          rw [← ih (upsertD acc k1 w), eraseD_upsert_self]
    · rw [show eraseD ((k1, v1) :: t) k = (k1, v1) :: eraseD t k from by
        simp [eraseD, hk]]
      cases he : lookupD enc k1 with
      | none =>
        rw [show safeOptionsAux enc (eraseD acc k) ((k1, v1) :: eraseD t k)
            = safeOptionsAux enc (eraseD acc k) (eraseD t k) from by
          simp [safeOptionsAux, he]]
        rw [show safeOptionsAux enc acc ((k1, v1) :: t) =
          safeOptionsAux enc acc t from by simp [safeOptionsAux, he]]
        exact ih acc
      | some ty =>
        cases hc : pyCoerce ty v1 with
        | none =>
          rw [show safeOptionsAux enc (eraseD acc k)
              ((k1, v1) :: eraseD t k) =
              safeOptionsAux enc (eraseD acc k) (eraseD t k) from by
            simp [safeOptionsAux, he, hc]]
          rw [show safeOptionsAux enc acc ((k1, v1) :: t) =
            safeOptionsAux enc acc t from by simp [safeOptionsAux, he, hc]]
          exact ih acc
        | some w =>
          rw [show safeOptionsAux enc (eraseD acc k)
              ((k1, v1) :: eraseD t k) =
              safeOptionsAux enc (upsertD (eraseD acc k) k1 w)
                (eraseD t k) from by simp [safeOptionsAux, he, hc]]
          rw [show safeOptionsAux enc acc ((k1, v1) :: t) =
            safeOptionsAux enc (upsertD acc k1 w) t from by
              simp [safeOptionsAux, he, hc]]
          rw [upsertD_erase_comm hk]
          exact ih (upsertD acc k1 w)

/-- The `safe_options` does not touch keys absent from the input. -/
theorem lookupD_safeOptionsAux_no_key (enc : List (String × PyType))
    {t : SpecDict} {k : String} (h : lookupD t k = Option.none) :
    ∀ acc, lookupD (safeOptionsAux enc acc t) k = lookupD acc k := by
  induction t with
  | nil => intro acc; rfl
  | cons p t ih =>
    intro acc
    obtain ⟨k1, v1⟩ := p
    have hk : ¬ k1 = k := by
      intro he
      rw [lookupD, if_pos he] at h
      exact absurd h (by simp)
    rw [lookupD, if_neg hk] at h
    cases he : lookupD enc k1 with
    | none =>
      rw [show safeOptionsAux enc acc ((k1, v1) :: t) =
        safeOptionsAux enc acc t from by simp [safeOptionsAux, he]]
      exact ih h acc
    | some ty =>
      cases hc : pyCoerce ty v1 with
      | none =>
        rw [show safeOptionsAux enc acc ((k1, v1) :: t) =
          safeOptionsAux enc acc t from by simp [safeOptionsAux, he, hc]]
        exact ih h acc
      | some w =>
        rw [show safeOptionsAux enc acc ((k1, v1) :: t) =
          safeOptionsAux enc (upsertD acc k1 w) t from by
            simp [safeOptionsAux, he, hc]]
        rw [ih h (upsertD acc k1 w)]
        exact lookupD_upsert_ne (fun he2 => hk he2.symm) acc w

/-- In a dict with unique keys, the validated map binds a recognized key
to its coerced value (or nothing, when coercion fails). -/
theorem lookupD_safeOptionsAux_found (enc : List (String × PyType))
    {t : SpecDict} {k : String} {v : PyVal} {ty : PyType}
    (hnd : (keysD t).Nodup) (hv : lookupD t k = some v)
    (he : lookupD enc k = some ty) :
    ∀ acc, lookupD (safeOptionsAux enc acc t) k =
      (match pyCoerce ty v with
       | some w => some w
       | _ => lookupD acc k) := by
  induction t with
  | nil => intro acc; exact absurd hv (by simp [lookupD])
  | cons p t ih =>
    intro acc
    obtain ⟨k1, v1⟩ := p
    simp only [keysD, List.map_cons, List.nodup_cons] at hnd
    by_cases hk : k1 = k
    · subst hk
      have hv1 : v1 = v := by
        rw [lookupD, if_pos rfl] at hv
        exact Option.some.inj hv
      subst hv1
      have hnone : lookupD t k1 = Option.none :=
        lookupD_eq_none_of_not_mem (by simpa [keysD] using hnd.1)
      cases hc : pyCoerce ty v1 with
      | none =>
        rw [show safeOptionsAux enc acc ((k1, v1) :: t) =
          safeOptionsAux enc acc t from by simp [safeOptionsAux, he, hc]]
        rw [lookupD_safeOptionsAux_no_key enc hnone acc]
      | some w =>
        rw [show safeOptionsAux enc acc ((k1, v1) :: t) =
          safeOptionsAux enc (upsertD acc k1 w) t from by
            simp [safeOptionsAux, he, hc]]
        rw [lookupD_safeOptionsAux_no_key enc hnone (upsertD acc k1 w)]
        exact lookupD_upsert_self acc k1 w
    · have hv' : lookupD t k = some v := by
        rw [lookupD, if_neg hk] at hv; exact hv
      cases he1 : lookupD enc k1 with
      | none =>
        rw [show safeOptionsAux enc acc ((k1, v1) :: t) =
          safeOptionsAux enc acc t from by simp [safeOptionsAux, he1]]
        exact ih hnd.2 hv' acc
      | some ty1 =>
        cases hc1 : pyCoerce ty1 v1 with
        | none =>
          rw [show safeOptionsAux enc acc ((k1, v1) :: t) =
            safeOptionsAux enc acc t from by
              simp [safeOptionsAux, he1, hc1]]
          exact ih hnd.2 hv' acc
        | some w1 =>
          rw [show safeOptionsAux enc acc ((k1, v1) :: t) =
            safeOptionsAux enc (upsertD acc k1 w1) t from by
              simp [safeOptionsAux, he1, hc1]]
          rw [ih hnd.2 hv' (upsertD acc k1 w1)]
          cases pyCoerce ty v with
          | some w => rfl
          | none => exact lookupD_upsert_ne (fun he2 => hk he2.symm) acc w1

/-- In a dict with unique keys, an entry whose value is not copied (the
key is unrecognized or the coercion raises) contributes nothing:
`safe_options` of the dict equals that of the dict without the entry. -/
theorem safeOptionsAux_skip (enc : List (String × PyType)) {t : SpecDict}
    {k : String} {v : PyVal} (hnd : (keysD t).Nodup)
    (hv : lookupD t k = some v)
    (hskip : ∀ ty, lookupD enc k = some ty → pyCoerce ty v = Option.none) :
    ∀ acc, safeOptionsAux enc acc t = safeOptionsAux enc acc (eraseD t k) := by
  induction t with
  | nil => intro acc; rfl
  | cons p t ih =>
    intro acc
    obtain ⟨k1, v1⟩ := p
    simp only [keysD, List.map_cons, List.nodup_cons] at hnd
    by_cases hk : k1 = k
    · subst hk
      have hv1 : v1 = v := by
        rw [lookupD, if_pos rfl] at hv
        exact Option.some.inj hv
      subst hv1
      have hnone : lookupD t k1 = Option.none :=
        lookupD_eq_none_of_not_mem (by simpa [keysD] using hnd.1)
      rw [show eraseD ((k1, v1) :: t) k1 = eraseD t k1 from by
        simp [eraseD]]
      rw [eraseD_of_lookup_none hnone]
      cases he : lookupD enc k1 with
      | none => simp [safeOptionsAux, he]
      | some ty => simp [safeOptionsAux, he, hskip ty he]
    · have hv' : lookupD t k = some v := by
        rw [lookupD, if_neg hk] at hv; exact hv
      rw [show eraseD ((k1, v1) :: t) k = (k1, v1) :: eraseD t k from by
        simp [eraseD, hk]]
      cases he1 : lookupD enc k1 with
      | none =>
        simp only [safeOptionsAux, he1]
        exact ih hnd.2 hv' acc
      | some ty1 =>
        cases hc1 : pyCoerce ty1 v1 with
        | none =>
          simp only [safeOptionsAux, he1, hc1]
          exact ih hnd.2 hv' acc
        | some w1 =>
          simp only [safeOptionsAux, he1, hc1]
          exact ih hnd.2 hv' (upsertD acc k1 w1)

/-- Deleting the checked key first makes the range check a no-op. -/
theorem rangeStep_erase_self (key : String) (lo hi : Int) (s : SpecDict) :
    rangeStep key lo hi (eraseD s key) = eraseD s key := by
  unfold rangeStep
  rw [lookupD_erase_self]

/-- A range check commutes with deleting a different key. -/
theorem rangeStep_erase_ne {key k : String} (h : key ≠ k) (lo hi : Int)
    (s : SpecDict) :
    rangeStep key lo hi (eraseD s k) = eraseD (rangeStep key lo hi s) k := by
  unfold rangeStep
  rw [lookupD_erase_ne h]
  cases hx : lookupD s key with
  | none => rfl
  | some v =>
    cases v with
    | s str => rfl
    | null => rfl
    | i n =>
      by_cases ho : n < lo ∨ hi < n
      · simp [ho, eraseD_comm]
      · simp [ho]

/-- An out-of-range value makes the range check delete its key. -/
theorem rangeStep_deletes {key : String} {lo hi : Int} {s : SpecDict}
    {n : Int} (hv : lookupD s key = some (.i n)) (ho : n < lo ∨ hi < n) :
    rangeStep key lo hi s = eraseD s key := by
  unfold rangeStep
  rw [hv]
  simp [ho]

/-- A range check leaves other keys' bindings unchanged. -/
theorem lookupD_rangeStep_ne {q key : String} (h : q ≠ key) (lo hi : Int)
    (s : SpecDict) :
    lookupD (rangeStep key lo hi s) q = lookupD s q := by
  unfold rangeStep
  cases hx : lookupD s key with
  | none => rfl
  | some v =>
    cases v with
    | s str => rfl
    | null => rfl
    | i n =>
      by_cases ho : n < lo ∨ hi < n
      · simp [ho, lookupD_erase_ne h]
      · simp [ho]

/-- The `safe_options` commutes with deleting a key from the input. -/
theorem safeOptions_erase (enc : List (String × PyType)) (opt : SpecDict)
    (k : String) :
    safeOptions enc (eraseD opt k) = eraseD (safeOptions enc opt) k :=
  safeOptionsAux_erase enc k opt []

/-- The identity check reads only the `codec` key. -/
theorem baseCheck_erase (cn : PyVal) (opt : SpecDict) {k : String}
    (h : ("codec" : String) ≠ k) :
    baseCheck cn (eraseD opt k) = baseCheck cn opt := by
  unfold baseCheck
  rw [lookupD_erase_ne h]

/-- Dropping an out-of-range or uncoercible audio numeric option leaves the
validated map unchanged. -/
theorem audioSafe_erase_eq (ad : AudioDef) (opt : SpecDict) (k : String)
    (v : PyVal) (hk3 : k = "channels" ∨ k = "bitrate" ∨ k = "samplerate")
    (henc : lookupD (ad.extraOpts ++ audioBaseOpts) k = some PyType.int)
    (hnd : (keysD opt).Nodup) (hv : lookupD opt k = some v)
    (hdrop : dropValueB (audioRange k) v = true) :
    audioSafe ad (eraseD opt k) = audioSafe ad opt := by
  cases hc : coerceInt v with
  | none =>
    have hsafe : safeOptions (ad.extraOpts ++ audioBaseOpts) opt =
        safeOptions (ad.extraOpts ++ audioBaseOpts) (eraseD opt k) :=
      safeOptionsAux_skip _ hnd hv
        (fun ty hty => by
          rw [henc] at hty
          cases Option.some.inj hty
          simp [pyCoerce, hc]) []
    unfold audioSafe
    rw [hsafe]
  | some n =>
    have hl0 : lookupD (safeOptions (ad.extraOpts ++ audioBaseOpts) opt) k
        = some (.i n) := by
      have h := lookupD_safeOptionsAux_found
        (ad.extraOpts ++ audioBaseOpts) hnd hv henc []
      simpa [safeOptions, pyCoerce, hc] using h
    have hse : safeOptions (ad.extraOpts ++ audioBaseOpts) (eraseD opt k) =
        eraseD (safeOptions (ad.extraOpts ++ audioBaseOpts) opt) k :=
      safeOptions_erase _ opt k
    rcases hk3 with rfl | rfl | rfl
    · have ho : n < 1 ∨ 12 < n := by
        simpa [dropValueB, audioRange, hc] using hdrop
      unfold audioSafe
      rw [hse, rangeStep_erase_self, rangeStep_deletes hl0 ho]
    · have ho : n < 8 ∨ 512 < n := by
        simpa [dropValueB, audioRange, hc] using hdrop
      unfold audioSafe
      rw [hse,
        rangeStep_erase_ne (show ("channels" : String) ≠ "bitrate" by
          decide),
        rangeStep_erase_self,
        rangeStep_deletes (show lookupD (rangeStep "channels" 1 12
            (safeOptions (ad.extraOpts ++ audioBaseOpts) opt)) "bitrate" =
            some (.i n) from by
          rw [lookupD_rangeStep_ne (show ("bitrate" : String) ≠ "channels"
            by decide)]
          exact hl0) ho]
    · have ho : n < 1000 ∨ 50000 < n := by
        simpa [dropValueB, audioRange, hc] using hdrop
      unfold audioSafe
      rw [hse,
        rangeStep_erase_ne (show ("channels" : String) ≠ "samplerate" by
          decide),
        rangeStep_erase_ne (show ("bitrate" : String) ≠ "samplerate" by
          decide),
        rangeStep_erase_self,
        rangeStep_deletes (show lookupD (rangeStep "bitrate" 8 512
            (rangeStep "channels" 1 12
              (safeOptions (ad.extraOpts ++ audioBaseOpts) opt)))
            "samplerate" = some (.i n) from by
          rw [lookupD_rangeStep_ne (show ("samplerate" : String) ≠
              "bitrate" by decide),
            lookupD_rangeStep_ne (show ("samplerate" : String) ≠
              "channels" by decide)]
          exact hl0) ho]

/-- Dropping an out-of-range or uncoercible audio numeric option does not
change the compiled audio argument list (for any codec-specific hooks). -/
theorem audioCodecParse_drop (ad : AudioDef) (opt : SpecDict) (k : String)
    (v : PyVal) (hk3 : k = "channels" ∨ k = "bitrate" ∨ k = "samplerate")
    (henc : lookupD (ad.extraOpts ++ audioBaseOpts) k = some PyType.int)
    (hnd : (keysD opt).Nodup) (hv : lookupD opt k = some v)
    (hdrop : dropValueB (audioRange k) v = true) :
    audioCodecParse ad opt = audioCodecParse ad (eraseD opt k) := by
  have hkc : ("codec" : String) ≠ k := by
    rcases hk3 with rfl | rfl | rfl <;> decide
  unfold audioCodecParse
  rw [baseCheck_erase ad.codecName opt hkc, audioSafe_erase_eq ad opt k v
    hk3 henc hnd hv hdrop]

/-- The `AudioCodec.parse_options` always succeeds when the codec identity
matches: after the identity check everything is total. -/
theorem audioCodecParse_ok (ad : AudioDef) (opt : SpecDict)
    (h : lookupD opt "codec" = some ad.codecName) :
    ∃ l, audioCodecParse ad opt = .ok l := by
  unfold audioCodecParse baseCheck
  rw [h]
  simp

/-! ### C5: the pointwise-equality machinery for width/height drops -/

/-- Assignment preserves pointwise equality. -/
theorem peq_upsert {s1 s2 : SpecDict} (hp : PEqD s1 s2) (k : String)
    (v : PyVal) : PEqD (upsertD s1 k v) (upsertD s2 k v) := by
  intro q
  by_cases hq : q = k
  · subst hq
    rw [lookupD_upsert_self, lookupD_upsert_self]
  · rw [lookupD_upsert_ne hq, lookupD_upsert_ne hq, hp q]

/-- The identity hook respects pointwise dict equality. -/
theorem respectsPEq_id : RespectsPEq (fun safe => safe) :=
  fun _ _ hp => hp

/-- The MPEG aspect-filter hook respects pointwise dict equality. -/
theorem mpegHook_respects : RespectsPEq mpegHook := by
  intro s1 s2 hp
  unfold mpegHook
  rw [hp "width", hp "height", hp "aspect_filters"]
  cases lookupD s2 "width" with
  | none => exact hp
  | some wv =>
    cases wv with
    | s str => exact hp
    | null => exact hp
    | i w =>
      cases lookupD s2 "height" with
      | none => exact hp
      | some hv2 =>
        cases hv2 with
        | s str => exact hp
        | null => exact hp
        | i h =>
          by_cases hwh : w ≠ 0 ∧ h ≠ 0
          · simp only [if_pos hwh]
            cases lookupD s2 "aspect_filters" with
            | none => exact peq_upsert hp _ _
            | some fv =>
              cases fv with
              | s f => exact peq_upsert hp _ _
              | i m => exact peq_upsert hp _ _
              | null => exact peq_upsert hp _ _
          · simp only [if_neg hwh]
            exact hp

/-- The shared quality-flag producer observes the dict only via lookups. -/
theorem qualityList_respects (flag : String) :
    ListRespectsPEq (qualityList flag) := by
  intro s1 s2 hp
  unfold qualityList
  rw [hp "quality"]

/-- The H.264 list producer observes the dict only via lookups. -/
theorem h264List_respects : ListRespectsPEq h264List := by
  intro s1 s2 hp
  unfold h264List
  rw [hp "preset", hp "quality", hp "profile", hp "tune"]

/-- A constant list producer trivially respects dict equality. -/
theorem constList_respects (l : List Tok) :
    ListRespectsPEq (fun _ => l) := fun _ _ _ => rfl

/-- The final video list emission depends on the refined map only through
lookups (given a lookup-respecting codec-specific list). -/
theorem videoList_congr (vd : VideoDef) (ow oh : Int) {s1 s2 : SpecDict}
    (hlist : ListRespectsPEq vd.specificList) (hp : PEqD s1 s2) :
    videoList vd ow oh s1 = videoList vd ow oh s2 := by
  unfold videoList
  rw [hp "width", hp "height", hp "aspect_filters", hp "fps",
    hp "bitrate", hlist s1 s2 hp]

/-- The geometry write-back erases any difference confined to the `width`
or `height` binding: the results are pointwise equal. -/
theorem videoSafe1_peq {s1 s2 : SpecDict} {kk : String}
    (hkk : kk = "width" ∨ kk = "height")
    (hs : ∀ q, q ≠ kk → lookupD s1 q = lookupD s2 q)
    (w h : Int) (f : Option String) :
    PEqD (videoSafe1 s1 w h f) (videoSafe1 s2 w h f) := by
  have hbase : PEqD
      (upsertD (upsertD s1 "width" (.i w)) "height" (.i h))
      (upsertD (upsertD s2 "width" (.i w)) "height" (.i h)) := by
    intro q
    by_cases hq1 : q = "height"
    · subst hq1
      rw [lookupD_upsert_self, lookupD_upsert_self]
    · rw [lookupD_upsert_ne hq1, lookupD_upsert_ne hq1]
      by_cases hq2 : q = "width"
      · subst hq2
        rw [lookupD_upsert_self, lookupD_upsert_self]
      · rw [lookupD_upsert_ne hq2, lookupD_upsert_ne hq2]
        apply hs
        rcases hkk with rfl | rfl
        · exact hq2
        · exact hq1
  unfold videoSafe1
  by_cases hwh : w ≠ 0 ∧ h ≠ 0
  · simp only [if_pos hwh]
    exact peq_upsert (peq_upsert hbase _ _) _ _
  · simp only [if_neg hwh]
    exact peq_upsert hbase _ _

/-- Dropping an out-of-range or uncoercible video numeric option does not
change the compiled video argument list, provided the codec-specific hooks
observe the validated map only through lookups (all concrete hooks do). -/
theorem videoCodecParse_drop (vd : VideoDef) (opt : SpecDict) (k : String)
    (v : PyVal)
    (hresp : RespectsPEq vd.specificParse)
    (hlist : ListRespectsPEq vd.specificList)
    (hk4 : k = "fps" ∨ k = "bitrate" ∨ k = "width" ∨ k = "height")
    (henc : lookupD (vd.extraOpts ++ videoBaseOpts) k = some PyType.int)
    (hnd : (keysD opt).Nodup) (hv : lookupD opt k = some v)
    (hdrop : dropValueB (videoRange k) v = true) :
    videoCodecParse vd opt = videoCodecParse vd (eraseD opt k) := by
  have hkc : ("codec" : String) ≠ k := by
    rcases hk4 with rfl | rfl | rfl | rfl <;> decide
  have hbc : baseCheck vd.codecName (eraseD opt k) =
      baseCheck vd.codecName opt := baseCheck_erase vd.codecName opt hkc
  cases hc : coerceInt v with
  | none =>
    have hsafe : safeOptions (vd.extraOpts ++ videoBaseOpts) opt =
        safeOptions (vd.extraOpts ++ videoBaseOpts) (eraseD opt k) :=
      safeOptionsAux_skip _ hnd hv
        (fun ty hty => by
          rw [henc] at hty
          cases Option.some.inj hty
          simp [pyCoerce, hc]) []
    unfold videoCodecParse videoSafe0
    rw [hbc, hsafe]
  | some n =>
    have hl0 : lookupD (safeOptions (vd.extraOpts ++ videoBaseOpts) opt) k
        = some (.i n) := by
      have h := lookupD_safeOptionsAux_found
        (vd.extraOpts ++ videoBaseOpts) hnd hv henc []
      simpa [safeOptions, pyCoerce, hc] using h
    have hse : safeOptions (vd.extraOpts ++ videoBaseOpts) (eraseD opt k) =
        eraseD (safeOptions (vd.extraOpts ++ videoBaseOpts) opt) k :=
      safeOptions_erase _ opt k
    rcases hk4 with rfl | rfl | rfl | rfl
    · -- fps: deleted by its range check, so the validated maps coincide
      have ho : n < 1 ∨ 120 < n := by
        simpa [dropValueB, videoRange, hc] using hdrop
      have h0 : videoSafe0 vd (eraseD opt "fps") = videoSafe0 vd opt := by
        unfold videoSafe0
        rw [hse, rangeStep_erase_self, rangeStep_deletes hl0 ho]
      unfold videoCodecParse
      rw [hbc, h0]
    · -- bitrate: deleted by its range check
      have ho : n < 16 ∨ 15000 < n := by
        simpa [dropValueB, videoRange, hc] using hdrop
      have h0 : videoSafe0 vd (eraseD opt "bitrate") = videoSafe0 vd opt := by
        unfold videoSafe0
        rw [hse,
          rangeStep_erase_ne (show ("fps" : String) ≠ "bitrate" by decide),
          rangeStep_erase_self,
          rangeStep_deletes (show lookupD (rangeStep "fps" 1 120
              (safeOptions (vd.extraOpts ++ videoBaseOpts) opt)) "bitrate"
              = some (.i n) from by
            rw [lookupD_rangeStep_ne (show ("bitrate" : String) ≠ "fps" by
              decide)]
            exact hl0) ho]
      unfold videoCodecParse
      rw [hbc, h0]
    · -- width: ignored by the geometry extraction, overwritten afterwards
      have ho : n < 16 ∨ 4000 < n := by
        simpa [dropValueB, videoRange, hc] using hdrop
      have hS : videoSafe0 vd (eraseD opt "width") =
          eraseD (videoSafe0 vd opt) "width" := by
        unfold videoSafe0
        rw [hse,
          rangeStep_erase_ne (show ("fps" : String) ≠ "width" by decide),
          rangeStep_erase_ne (show ("bitrate" : String) ≠ "width" by
            decide)]
      have hlS : lookupD (videoSafe0 vd opt) "width" = some (.i n) := by
        unfold videoSafe0
        rw [lookupD_rangeStep_ne (show ("width" : String) ≠ "bitrate" by
            decide),
          lookupD_rangeStep_ne (show ("width" : String) ≠ "fps" by decide)]
        exact hl0
      have hW : videoW (eraseD (videoSafe0 vd opt) "width") =
          videoW (videoSafe0 vd opt) := by
        unfold videoW
        rw [lookupD_erase_self, hlS]
        simp [ho]
      have hH : videoH (eraseD (videoSafe0 vd opt) "width") =
          videoH (videoSafe0 vd opt) := by
        unfold videoH
        rw [lookupD_erase_ne (show ("height" : String) ≠ "width" by
          decide)]
      have hSrc : videoSrc (eraseD (videoSafe0 vd opt) "width") =
          videoSrc (videoSafe0 vd opt) := by
        unfold videoSrc
        rw [lookupD_erase_ne (show ("src_width" : String) ≠ "width" by
            decide),
          lookupD_erase_ne (show ("src_height" : String) ≠ "width" by
            decide)]
      have hMode : videoMode (eraseD (videoSafe0 vd opt) "width") =
          videoMode (videoSafe0 vd opt) := by
        unfold videoMode
        rw [lookupD_erase_ne (show ("mode" : String) ≠ "width" by decide)]
      unfold videoCodecParse
      rw [hbc, hS, hW, hH, hSrc, hMode]
      cases baseCheck vd.codecName opt with
      | error e => rfl
      | ok u =>
        cases aspect_corrections (videoSrc (videoSafe0 vd opt)).1
            (videoSrc (videoSafe0 vd opt)).2 (videoW (videoSafe0 vd opt))
            (videoH (videoSafe0 vd opt)) (videoMode (videoSafe0 vd opt))
            with
        | error e => rfl
        | ok res =>
          obtain ⟨w2, h2, filters⟩ := res
          exact videoList_congr vd _ _ hlist
            (hresp _ _ (videoSafe1_peq (Or.inl rfl)
              (fun q hq => (lookupD_erase_ne hq _).symm) w2 h2 filters))
    · -- height: symmetric to width
      have ho : n < 16 ∨ 3000 < n := by
        simpa [dropValueB, videoRange, hc] using hdrop
      have hS : videoSafe0 vd (eraseD opt "height") =
          eraseD (videoSafe0 vd opt) "height" := by
        unfold videoSafe0
        rw [hse,
          rangeStep_erase_ne (show ("fps" : String) ≠ "height" by decide),
          rangeStep_erase_ne (show ("bitrate" : String) ≠ "height" by
            decide)]
      have hlS : lookupD (videoSafe0 vd opt) "height" = some (.i n) := by
        unfold videoSafe0
        rw [lookupD_rangeStep_ne (show ("height" : String) ≠ "bitrate" by
            decide),
          lookupD_rangeStep_ne (show ("height" : String) ≠ "fps" by
            decide)]
        exact hl0
      have hW : videoW (eraseD (videoSafe0 vd opt) "height") =
          videoW (videoSafe0 vd opt) := by
        unfold videoW
        rw [lookupD_erase_ne (show ("width" : String) ≠ "height" by
          decide)]
      have hH : videoH (eraseD (videoSafe0 vd opt) "height") =
          videoH (videoSafe0 vd opt) := by
        unfold videoH
        rw [lookupD_erase_self, hlS]
        simp [ho]
      have hSrc : videoSrc (eraseD (videoSafe0 vd opt) "height") =
          videoSrc (videoSafe0 vd opt) := by
        unfold videoSrc
        rw [lookupD_erase_ne (show ("src_width" : String) ≠ "height" by
            decide),
          lookupD_erase_ne (show ("src_height" : String) ≠ "height" by
            decide)]
      have hMode : videoMode (eraseD (videoSafe0 vd opt) "height") =
          videoMode (videoSafe0 vd opt) := by
        unfold videoMode
        rw [lookupD_erase_ne (show ("mode" : String) ≠ "height" by decide)]
      unfold videoCodecParse
      rw [hbc, hS, hW, hH, hSrc, hMode]
      cases baseCheck vd.codecName opt with
      | error e => rfl
      | ok u =>
        cases aspect_corrections (videoSrc (videoSafe0 vd opt)).1
            (videoSrc (videoSafe0 vd opt)).2 (videoW (videoSafe0 vd opt))
            (videoH (videoSafe0 vd opt)) (videoMode (videoSafe0 vd opt))
            with
        | error e => rfl
        | ok res =>
          obtain ⟨w2, h2, filters⟩ := res
          exact videoList_congr vd _ _ hlist
            (hresp _ _ (videoSafe1_peq (Or.inr rfl)
              (fun q hq => (lookupD_erase_ne hq _).symm) w2 h2 filters))

/-- C5: for option maps (with unique keys, as Python dicts have) whose
codec identity matches the compiler, the audio compiler always succeeds,
and an out-of-range or uncoercible numeric option — audio channels outside
1–12, bitrate outside 8–512, samplerate outside 1000–50000; video fps
outside 1–120, bitrate outside 16–15000, width outside 16–4000, height
outside 16–3000 — is silently dropped: the compiled argument list is
exactly the one compiled from the same map without that option, so
`parse_options` never raises because of such a value.  The video part
holds for every codec whose specific hooks observe the validated map only
through key lookups, which all the concrete codecs do. -/
theorem c5_out_of_range_dropped :
    (∀ (ad : AudioDef) (opt : SpecDict),
      lookupD opt "codec" = some ad.codecName →
        ∃ l, audioCodecParse ad opt = .ok l) ∧
    (∀ (ad : AudioDef) (opt : SpecDict) (k : String) (v : PyVal),
      (k = "channels" ∨ k = "bitrate" ∨ k = "samplerate") →
      lookupD (ad.extraOpts ++ audioBaseOpts) k = some PyType.int →
      (keysD opt).Nodup →
      lookupD opt k = some v →
      dropValueB (audioRange k) v = true →
      audioCodecParse ad opt = audioCodecParse ad (eraseD opt k)) ∧
    (∀ (vd : VideoDef) (opt : SpecDict) (k : String) (v : PyVal),
      RespectsPEq vd.specificParse →
      ListRespectsPEq vd.specificList →
      (k = "fps" ∨ k = "bitrate" ∨ k = "width" ∨ k = "height") →
      lookupD (vd.extraOpts ++ videoBaseOpts) k = some PyType.int →
      (keysD opt).Nodup →
      lookupD opt k = some v →
      dropValueB (videoRange k) v = true →
      videoCodecParse vd opt = videoCodecParse vd (eraseD opt k)) :=
  ⟨audioCodecParse_ok,
   fun ad opt k v hk3 henc hnd hv hdrop =>
     audioCodecParse_drop ad opt k v hk3 henc hnd hv hdrop,
   fun vd opt k v hresp hlist hk4 henc hnd hv hdrop =>
     videoCodecParse_drop vd opt k v hresp hlist hk4 henc hnd hv hdrop⟩

/-- Witness for `c5_out_of_range_dropped`: `channels=20` (cf. the spec's
own example), `bitrate=1` for Theora, and an out-of-range `width=9000`
for MPEG-2 (whose hook rewrites the filter chain) are all dropped. -/
theorem c5_out_of_range_dropped_witness :
    (∃ l, audioCodecParse mp3Def
      [("codec", PyVal.s "mp3"), ("channels", PyVal.i 20)] = .ok l) ∧
    audioCodecParse mp3Def
        [("codec", PyVal.s "mp3"), ("channels", PyVal.i 20)] =
      audioCodecParse mp3Def
        (eraseD [("codec", PyVal.s "mp3"), ("channels", PyVal.i 20)]
          "channels") ∧
    videoCodecParse theoraDef
        [("codec", PyVal.s "theora"), ("bitrate", PyVal.i 1)] =
      videoCodecParse theoraDef
        (eraseD [("codec", PyVal.s "theora"), ("bitrate", PyVal.i 1)]
          "bitrate") ∧
    videoCodecParse mpeg2Def
        [("codec", PyVal.s "mpeg2"), ("width", PyVal.i 9000)] =
      videoCodecParse mpeg2Def
        (eraseD [("codec", PyVal.s "mpeg2"), ("width", PyVal.i 9000)]
          "width") := by
  refine ⟨c5_out_of_range_dropped.1 mp3Def _ (by decide),
    c5_out_of_range_dropped.2.1 mp3Def _ "channels" (PyVal.i 20)
      (Or.inl rfl) (by decide) (by decide) (by decide) (by decide),
    c5_out_of_range_dropped.2.2 theoraDef _ "bitrate" (PyVal.i 1)
      respectsPEq_id (qualityList_respects "-qscale:v")
      (Or.inr (Or.inl rfl)) (by decide) (by decide) (by decide)
      (by decide),
    c5_out_of_range_dropped.2.2 mpeg2Def _ "width" (PyVal.i 9000)
      mpegHook_respects (constList_respects [])
      (Or.inr (Or.inr (Or.inl rfl))) (by decide) (by decide) (by decide)
      (by decide)⟩

end VideoConverter
